import Mathlib

/-!
Verification of the interview-orchestration backend: a shallow embedding of
the session manager (`sessionManager.ts`), the agent gateway's JSON recovery
(`archestra.ts`), and the four HTTP handlers (`routes/interview.ts`).

Conventions of the embedding:
* JavaScript's in-memory `Map` of sessions is a function store
  `String → Option InterviewSession`; `Map.get`/`Map.set` become
  `storeGet`/`storeSet`.
* Machine clock and uuid generation are parameters (`now : Nat` epoch
  milliseconds, `newId : String`).
* External agent calls are parameters of the handlers: an
  `AgentOutcome α` is either a transport failure (`sendToAgent` threw: a
  non-success HTTP status or an agent-level JSON-RPC error), an unparsable
  body (`parseAgentJSON` threw), or a parsed value of the expected shape.
* JavaScript truthiness is modelled field by field: an optional string is
  truthy when present and non-empty (`strTruthy`), a number is truthy when
  non-zero, a missing field is `none`.
* Thrown exceptions are `Except.error`; the Express route's outer
  `try`/`catch` that turns an uncaught throw into a 500 response is the
  `HandlerOut.fail 500` constructor.
-/

/-! ## Data model (sessionManager.ts) -/

inductive Difficulty where
  | easy
  | medium
  | hard
deriving DecidableEq, Repr

/-- `getLowerDifficulty` from sessionManager.ts (present in the source;
unused by the route handlers). -/
def getLowerDifficulty (current : Difficulty) : Difficulty :=
  if current = .hard then .medium
  else if current = .medium then .easy
  else .easy

inductive QType where
  | video
  | code
deriving DecidableEq, Repr

/-- The `evaluation` field of a `QuestionRecord`. -/
structure Evaluation where
  score : Int
  nextDifficulty : Difficulty
  strengths : List String
  weaknesses : List String
  brief : String
deriving DecidableEq, Repr

/-- The `codeReview` field of a `QuestionRecord`. -/
structure CodeReview where
  score : Int
  correctness : Bool
  timeComplexity : String
  spaceComplexity : String
  strengths : List String
  issues : List String
  brief : String
deriving DecidableEq, Repr

/-- `QuestionRecord` from sessionManager.ts.  Optional TS fields are
`Option`; `skipped` is `Option Bool` because it is absent until an answer
is recorded. -/
structure QuestionRecord where
  id : Nat
  type : QType
  text : String
  title : Option String
  difficulty : Difficulty
  starterCode : Option String
  language : Option String
  answer : Option String
  skipped : Option Bool
  evaluation : Option Evaluation
  codeReview : Option CodeReview
deriving DecidableEq, Repr

/-- The analyst agent returns `Record<string, unknown>`; the code only ever
reads/writes the fields below (the fallback in the /complete route writes
all of them).  An arbitrary partial payload is modelled by making every
field optional. -/
structure SkillScores where
  reactFundamentals : Int
  problemSolving : Int
  technicalDepth : Int
  codeQuality : Int
  conceptualClarity : Int
deriving DecidableEq, Repr

structure QuestionResult where
  question : String
  score : Int
  maxScore : Int
  feedback : String
deriving DecidableEq, Repr

structure FeedbackItem where
  type : String
  text : String
deriving DecidableEq, Repr

structure Analysis where
  overallScore : Option Int := none
  recommendation : Option String := none
  summary : Option String := none
  totalTime : Option String := none
  skillScores : Option SkillScores := none
  questionResults : Option (List QuestionResult) := none
  feedback : Option (List FeedbackItem) := none
deriving DecidableEq, Repr

/-- `InterviewSession` from sessionManager.ts.  Timestamps are epoch
milliseconds (`new Date().toISOString()` stores a rendering of the clock;
only the clock value matters to the code, via `new Date(startedAt)`). -/
structure InterviewSession where
  id : String
  role : String
  company : String
  currentDifficulty : Difficulty
  currentQuestionIndex : Nat
  totalVideoQuestions : Nat
  questions : List QuestionRecord
  startedAt : Nat
  completedAt : Option Nat
  analysis : Option Analysis
deriving DecidableEq, Repr

/-! ## JavaScript truthiness helpers -/

/-- Truthiness of an optional string (`undefined` and `''` are falsy). -/
def strTruthy : Option String → Bool
  | none => false
  | some s => !s.isEmpty

/-- `a || b` for an optional string `a` and a default `b`. -/
def orStr (a : Option String) (b : String) : String :=
  match a with
  | none => b
  | some s => if s.isEmpty then b else s

/-- `a || b` for an optional number `a` (0 is falsy) continuing with an
optional number `b`, final default `d`:  `a?.x || b?.x || d`. -/
def orInt (a : Option Int) (b : Option Int) (d : Int) : Int :=
  match a with
  | some x => if x = 0 then (match b with
      | some y => if y = 0 then d else y
      | none => d) else x
  | none => match b with
    | some y => if y = 0 then d else y
    | none => d

/-! ## The session store -/

def Store : Type := String → Option InterviewSession

def emptyStore : Store := fun _ => none

def storeGet (st : Store) (sessionId : String) : Option InterviewSession :=
  st sessionId

def storeSet (st : Store) (sessionId : String) (s : InterviewSession) : Store :=
  fun k => if k = sessionId then some s else st k

/-- `createSession` from sessionManager.ts, with the uuid and clock as
parameters.  Returns the fresh session and the updated store. -/
def createSession (st : Store) (newId : String) (now : Nat)
    (role company : String) : InterviewSession × Store :=
  let session : InterviewSession := {
    id := newId
    role := role
    company := company
    currentDifficulty := .medium
    currentQuestionIndex := 0
    totalVideoQuestions := 3
    questions := []
    startedAt := now
    completedAt := none
    analysis := none }
  (session, storeSet st newId session)

/-- `getSession` from sessionManager.ts. -/
def getSession (st : Store) (sessionId : String) : Option InterviewSession :=
  storeGet st sessionId

/-- `Omit<QuestionRecord, 'id'>`: the argument of `addQuestion`. -/
structure QuestionInput where
  type : QType
  text : String
  title : Option String
  difficulty : Difficulty
  starterCode : Option String := none
  language : Option String := none
  answer : Option String := none
  skipped : Option Bool := none
  evaluation : Option Evaluation := none
  codeReview : Option CodeReview := none
deriving DecidableEq, Repr

/-- Session-level core of `addQuestion`: assigns `questions.length + 1` as
the id, appends, and sets `currentQuestionIndex` to the new length. -/
def addQuestionCore (session : InterviewSession) (question : QuestionInput) :
    QuestionRecord × InterviewSession :=
  let record : QuestionRecord := {
    id := session.questions.length + 1
    type := question.type
    text := question.text
    title := question.title
    difficulty := question.difficulty
    starterCode := question.starterCode
    language := question.language
    answer := question.answer
    skipped := question.skipped
    evaluation := question.evaluation
    codeReview := question.codeReview }
  (record, { session with
    questions := session.questions ++ [record]
    currentQuestionIndex := session.questions.length + 1 })

/-- `addQuestion` from sessionManager.ts. -/
def addQuestion (st : Store) (sessionId : String) (question : QuestionInput) :
    Except String (QuestionRecord × Store) :=
  match storeGet st sessionId with
  | none => .error ("Session " ++ sessionId ++ " not found")
  | some session =>
    let (record, session') := addQuestionCore session question
    .ok (record, storeSet st sessionId session')

/-- Mutate the first element satisfying `p` (JavaScript
`array.find(...)` followed by in-place mutation of the found element). -/
def updateFirst (p : α → Bool) (f : α → α) : List α → List α
  | [] => []
  | a :: as => if p a then f a :: as else a :: updateFirst p f as

/-- Session-level core of `recordAnswer`; `none` when the question id is
absent (the `throw` case). -/
def recordAnswerCore (session : InterviewSession) (questionId : Nat)
    (answer : String) (skipped : Bool) : Option InterviewSession :=
  if session.questions.any (fun q => q.id == questionId) then
    some { session with
      questions := updateFirst (fun q => q.id == questionId)
        (fun q => { q with answer := some answer, skipped := some skipped })
        session.questions }
  else none

/-- `recordAnswer` from sessionManager.ts. -/
def recordAnswer (st : Store) (sessionId : String) (questionId : Nat)
    (answer : String) (skipped : Bool) : Except String Store :=
  match storeGet st sessionId with
  | none => .error ("Session " ++ sessionId ++ " not found")
  | some session =>
    match recordAnswerCore session questionId answer skipped with
    | none => .error ("Question " ++ toString questionId ++ " not found in session")
    | some session' => .ok (storeSet st sessionId session')

/-- Session-level core of `recordEvaluation`: stores the evaluation and, if
it is present (truthy), propagates `nextDifficulty` into the session. -/
def recordEvaluationCore (session : InterviewSession) (questionId : Nat)
    (evaluation : Option Evaluation) : Option InterviewSession :=
  if session.questions.any (fun q => q.id == questionId) then
    some { session with
      questions := updateFirst (fun q => q.id == questionId)
        (fun q => { q with evaluation := evaluation }) session.questions
      currentDifficulty :=
        match evaluation with
        | some e => e.nextDifficulty
        | none => session.currentDifficulty }
  else none

/-- `recordEvaluation` from sessionManager.ts. -/
def recordEvaluation (st : Store) (sessionId : String) (questionId : Nat)
    (evaluation : Option Evaluation) : Except String Store :=
  match storeGet st sessionId with
  | none => .error ("Session " ++ sessionId ++ " not found")
  | some session =>
    match recordEvaluationCore session questionId evaluation with
    | none => .error ("Question " ++ toString questionId ++ " not found")
    | some session' => .ok (storeSet st sessionId session')

/-- Session-level core of `recordCodeReview`. -/
def recordCodeReviewCore (session : InterviewSession) (questionId : Nat)
    (review : Option CodeReview) : Option InterviewSession :=
  if session.questions.any (fun q => q.id == questionId) then
    some { session with
      questions := updateFirst (fun q => q.id == questionId)
        (fun q => { q with codeReview := review }) session.questions }
  else none

/-- `recordCodeReview` from sessionManager.ts. -/
def recordCodeReview (st : Store) (sessionId : String) (questionId : Nat)
    (review : Option CodeReview) : Except String Store :=
  match storeGet st sessionId with
  | none => .error ("Session " ++ sessionId ++ " not found")
  | some session =>
    match recordCodeReviewCore session questionId review with
    | none => .error ("Question " ++ toString questionId ++ " not found")
    | some session' => .ok (storeSet st sessionId session')

/-- Session-level core of `completeSession`. -/
def completeSessionCore (session : InterviewSession) (now : Nat)
    (analysis : Analysis) : InterviewSession :=
  { session with completedAt := some now, analysis := some analysis }

/-- `completeSession` from sessionManager.ts. -/
def completeSession (st : Store) (sessionId : String) (now : Nat)
    (analysis : Analysis) : Except String Store :=
  match storeGet st sessionId with
  | none => .error ("Session " ++ sessionId ++ " not found")
  | some session => .ok (storeSet st sessionId (completeSessionCore session now analysis))

/-- `Partial<InterviewSession>`: the argument of `updateSession`.  A `none`
field is absent from the payload and left untouched by the shallow merge. -/
structure SessionUpdate where
  id : Option String := none
  role : Option String := none
  company : Option String := none
  currentDifficulty : Option Difficulty := none
  currentQuestionIndex : Option Nat := none
  totalVideoQuestions : Option Nat := none
  questions : Option (List QuestionRecord) := none
  startedAt : Option Nat := none
  completedAt : Option Nat := none
  analysis : Option Analysis := none
deriving Repr

/-- The question sanitisation inside `updateSession`:
`questions.map((q, index) => ({ ...q, id: q.id || (index + 1) }))`.
A supplied id is kept whenever it is truthy (non-zero); only falsy ids are
replaced by `index + 1`.  The index is threaded explicitly. -/
def sanitizeQuestions (i : Nat) : List QuestionRecord → List QuestionRecord
  | [] => []
  | q :: qs =>
    { q with id := if q.id ≠ 0 then q.id else i + 1 } :: sanitizeQuestions (i + 1) qs

/-- Session-level core of `updateSession`: shallow merge of the payload
over the session, with `id` forced back to the stored id and the question
list passed through `sanitizeQuestions`. -/
def updateSessionCore (session : InterviewSession) (updates : SessionUpdate) :
    InterviewSession :=
  let updatedSession : InterviewSession := {
    id := session.id
    role := updates.role.getD session.role
    company := updates.company.getD session.company
    currentDifficulty := updates.currentDifficulty.getD session.currentDifficulty
    currentQuestionIndex := updates.currentQuestionIndex.getD session.currentQuestionIndex
    totalVideoQuestions := updates.totalVideoQuestions.getD session.totalVideoQuestions
    questions := updates.questions.getD session.questions
    startedAt := updates.startedAt.getD session.startedAt
    completedAt := (updates.completedAt.map some).getD session.completedAt
    analysis := (updates.analysis.map some).getD session.analysis }
  { updatedSession with questions := sanitizeQuestions 0 updatedSession.questions }

/-- `updateSession` from sessionManager.ts (the `merge_external_update`
operation of the spec). -/
def updateSession (st : Store) (sessionId : String) (updates : SessionUpdate) :
    Except String (InterviewSession × Store) :=
  match storeGet st sessionId with
  | none => .error ("Session " ++ sessionId ++ " not found")
  | some session =>
    let updatedSession := updateSessionCore session updates
    .ok (updatedSession, storeSet st sessionId updatedSession)

/-! ## JavaScript string trimming (used by /submit-code and parseAgentJSON) -/

/-- The whitespace class used by JavaScript `trim()` and regex `\s`
(ASCII whitespace plus no-break space; the agent texts handled by the
repository are ASCII). -/
def jsWhitespace (c : Char) : Bool :=
  c == '\t' || c == '\n' || c == Char.ofNat 11 || c == Char.ofNat 12 ||
  c == '\r' || c == ' ' || c == Char.ofNat 0xA0

def jsTrimList (cs : List Char) : List Char :=
  ((cs.dropWhile jsWhitespace).reverse.dropWhile jsWhitespace).reverse

/-- JavaScript `String.prototype.trim`. -/
def jsTrimStr (s : String) : String :=
  String.mk (jsTrimList s.data)

/-! ## Agent gateway outcomes and typed agent responses

`sendToAgent` + `parseAgentJSON<T>` as seen by a route handler: the call
either threw in transport (non-OK HTTP status, or an A2A-level error —
both `throw` inside `sendToAgent`), or returned text that
`parseAgentJSON` could not parse (it threw), or produced a value of the
expected shape.  The string-level model of `parseAgentJSON` itself is
developed further below. -/

inductive AgentOutcome (α : Type) where
  | transportError (msg : String)
  | badJSON
  | ok (value : α)
deriving DecidableEq, Repr

/-- Whether the outcome is a transport failure (a throw inside
`sendToAgent`, before `parseAgentJSON` runs). -/
def AgentOutcome.isTransport : AgentOutcome α → Bool
  | .transportError _ => true
  | _ => false

/-- `InterviewerResponse` from routes/interview.ts; fields the handlers
guard with `||` are `Option`. -/
structure InterviewerResponse where
  type : Option QType := none
  text : String
  title : Option String := none
  difficulty : Option Difficulty := none
  starterCode : Option String := none
  language : Option String := none
deriving DecidableEq, Repr

/-- `EvaluatorResponse` from routes/interview.ts. -/
structure EvaluatorResponse where
  score : Int
  maxScore : Int
  difficulty : Difficulty
  nextDifficulty : Difficulty
  strengths : List String
  weaknesses : List String
  brief : String
deriving DecidableEq, Repr

/-- `CodeReviewResponse` from routes/interview.ts. -/
structure CodeReviewResponse where
  score : Int
  maxScore : Int
  correctness : Bool
  timeComplexity : String
  spaceComplexity : String
  strengths : List String
  issues : List String
  brief : String
deriving DecidableEq, Repr

/-! ## Response shapes of the four routes -/

structure QuestionView where
  id : Nat
  type : QType
  text : String
  title : Option String
  difficulty : Difficulty
  starterCode : Option String
  language : Option String
deriving DecidableEq, Repr

def QuestionRecord.toView (q : QuestionRecord) : QuestionView :=
  { id := q.id, type := q.type, text := q.text, title := q.title,
    difficulty := q.difficulty, starterCode := q.starterCode,
    language := q.language }

structure StartResponse where
  sessionId : String
  question : QuestionView
  totalQuestions : Nat
  currentQuestion : Nat
deriving DecidableEq, Repr

structure EvaluationView where
  score : Int
  strengths : List String
  weaknesses : List String
  brief : String
  nextDifficulty : Difficulty
deriving DecidableEq, Repr

structure AnswerResponse where
  evaluation : EvaluationView
  nextQuestion : Option QuestionView
  isLastVideoQuestion : Bool
  currentQuestion : Nat
  totalQuestions : Nat
deriving DecidableEq, Repr

structure ReviewView where
  score : Int
  correctness : Bool
  timeComplexity : String
  spaceComplexity : String
  strengths : List String
  issues : List String
  brief : String
deriving DecidableEq, Repr

structure CodeResponse where
  review : ReviewView
deriving DecidableEq, Repr

structure CompleteResponse where
  analysis : Analysis
deriving DecidableEq, Repr

/-- The result of a route handler: `ok` is `res.json(...)` (HTTP 200),
`fail` is `res.status(code).json({error})`; the store records the
mutations applied before the response was produced. -/
inductive HandlerOut (α : Type) where
  | ok (value : α) (st : Store)
  | fail (status : Nat) (error : String) (st : Store)

def HandlerOut.statusOf : HandlerOut α → Option Nat
  | .ok _ _ => none
  | .fail s _ _ => some s

def HandlerOut.valueOf : HandlerOut α → Option α
  | .ok v _ => some v
  | .fail _ _ _ => none

def HandlerOut.storeOf : HandlerOut α → Store
  | .ok _ st => st
  | .fail _ _ st => st

/-! ## Hand-authored fallback values (routes/interview.ts) -/

def startFallbackQuestion : InterviewerResponse :=
  { type := some .video
    text := "Can you explain the difference between useState and useReducer in React? When would you choose one over the other?"
    title := some "React State Management"
    difficulty := some .medium }

def codingFallbackQuestion (nextDifficulty : Difficulty) : InterviewerResponse :=
  { type := some .code
    text := "Create a custom React hook called useDebounce that takes a value and a delay in milliseconds. The hook should return the debounced value that only updates after the specified delay has passed since the last change."
    title := some "Custom useDebounce Hook"
    difficulty := some nextDifficulty
    starterCode := some "import \x7b useState, useEffect \x7d from \"react\";\n\nfunction useDebounce(value, delay) \x7b\n  // Your implementation here\n\x7d\n\nexport default useDebounce;\n"
    language := some "javascript" }

/-- The three fallback video questions; `pick` stands for the
`Math.floor(Math.random() * fallbackQs.length)` draw. -/
def videoFallbackQuestion (pick : Fin 3) (nextDifficulty : Difficulty) :
    InterviewerResponse :=
  let pair : String × String :=
    match pick with
    | 0 => ("What is the virtual DOM in React and how does it improve performance?", "Virtual DOM")
    | 1 => ("Explain the useEffect cleanup function. When and why would you use it?", "useEffect Cleanup")
    | 2 => ("What are React keys and why are they important when rendering lists?", "React Keys")
  { type := some .video
    text := pair.1
    title := some pair.2
    difficulty := some nextDifficulty }

def evaluationFallback (currentDifficulty : Difficulty) : EvaluatorResponse :=
  { score := 0, maxScore := 100, difficulty := currentDifficulty,
    nextDifficulty := currentDifficulty, strengths := [],
    weaknesses := ["AI evaluation unavailable"],
    brief := "Evaluation could not be completed." }

def skippedEvaluation (currentDifficulty : Difficulty) : EvaluatorResponse :=
  { score := 0, maxScore := 100, difficulty := currentDifficulty,
    nextDifficulty := currentDifficulty, strengths := [],
    weaknesses := ["Question skipped"],
    brief := "Question skipped by candidate." }

def zeroCodeReview : CodeReviewResponse :=
  { score := 0, maxScore := 100, correctness := false, timeComplexity := "N/A",
    spaceComplexity := "N/A", strengths := [],
    issues := ["No code was submitted"],
    brief := "Candidate did not submit any code." }

def codeReviewFallback : CodeReviewResponse :=
  { score := 0, maxScore := 100, correctness := false, timeComplexity := "N/A",
    spaceComplexity := "N/A", strengths := [],
    issues := ["AI code review unavailable"],
    brief := "Code review could not be completed." }

/-! ## POST /api/interview/start -/

/-- The `/start` route.  `newId`/`now` stand for uuid and clock;
`interviewerOutcome` is the interviewer-agent call.  A transport throw
escapes to the route's outer catch (500); a parse throw is caught and
replaced by `startFallbackQuestion`. -/
def startHandler (st : Store) (newId : String) (now : Nat)
    (role company : String)
    (interviewerOutcome : AgentOutcome InterviewerResponse) :
    HandlerOut StartResponse :=
  let (session, st1) := createSession st newId now role company
  match interviewerOutcome with
  | .transportError msg => .fail 500 msg st1
  | outcome =>
    let question : InterviewerResponse :=
      match outcome with
      | .ok q => q
      | _ => startFallbackQuestion
    match addQuestion st1 session.id
        { type := question.type.getD .video
          text := question.text
          title := question.title
          difficulty := question.difficulty.getD .medium
          starterCode := question.starterCode
          language := question.language } with
    | .error msg => .fail 500 msg st1
    | .ok (stored, st2) =>
      .ok { sessionId := session.id
            question := stored.toView
            totalQuestions := session.totalVideoQuestions + 1
            currentQuestion := 1 } st2

/-! ## POST /api/interview/answer -/

/-- Steps 3–5 of the `/answer` route: count completed video questions on
the (mutated) session, generate the next question (coding question when
the count has reached `totalVideoQuestions`), and build the response. -/
def answerNext (st : Store) (sessionId : String) (session : InterviewSession)
    (evaluation : EvaluatorResponse) (nextDifficulty : Difficulty)
    (interviewerOutcome : AgentOutcome InterviewerResponse) (pick : Fin 3) :
    HandlerOut AnswerResponse :=
  let completedQuestions := session.questions.countP
    (fun q => q.type == QType.video && (strTruthy q.answer || q.skipped.getD false))
  let isLastVideoQ : Bool := completedQuestions ≥ session.totalVideoQuestions
  match interviewerOutcome with
  | .transportError msg => .fail 500 msg st
  | outcome =>
    let (nextQuestion, session') :=
      if isLastVideoQ then
        let codeQ : InterviewerResponse :=
          match outcome with
          | .ok q => q
          | _ => codingFallbackQuestion nextDifficulty
        addQuestionCore session
          { type := .code
            text := codeQ.text
            title := some (orStr codeQ.title "Coding Challenge")
            difficulty := codeQ.difficulty.getD nextDifficulty
            starterCode := some (orStr codeQ.starterCode "// Write your solution here\n")
            language := some (orStr codeQ.language "javascript") }
      else
        let nextQ : InterviewerResponse :=
          match outcome with
          | .ok q => q
          | _ => videoFallbackQuestion pick nextDifficulty
        addQuestionCore session
          { type := nextQ.type.getD .video
            text := nextQ.text
            title := nextQ.title
            difficulty := nextQ.difficulty.getD nextDifficulty }
    .ok { evaluation := { score := evaluation.score
                          strengths := evaluation.strengths
                          weaknesses := evaluation.weaknesses
                          brief := evaluation.brief
                          nextDifficulty := evaluation.nextDifficulty }
          nextQuestion := some nextQuestion.toView
          isLastVideoQuestion := isLastVideoQ
          currentQuestion := session'.questions.length
          totalQuestions := session'.totalVideoQuestions + 1 }
      (storeSet st sessionId session')

/-- The `/answer` route.  `evaluatorOutcome` is the evaluator-agent call
(used only when not skipped); `interviewerOutcome` is the next-question
agent call; `pick` the random fallback draw. -/
def answerHandler (st : Store) (sessionId : String) (questionId : Nat)
    (transcript : String) (skipped : Bool)
    (evaluatorOutcome : AgentOutcome EvaluatorResponse)
    (interviewerOutcome : AgentOutcome InterviewerResponse) (pick : Fin 3) :
    HandlerOut AnswerResponse :=
  if sessionId.isEmpty || questionId == 0 then
    .fail 400 "sessionId and questionId are required" st
  else
    match storeGet st sessionId with
    | none => .fail 404 "Session not found" st
    | some session =>
      match session.questions.find? (fun q => q.id == questionId) with
      | none => .fail 404 "Question not found" st
      | some _currentQ =>
        if skipped then
          match recordAnswerCore session questionId "" true with
          | none => .fail 500 ("Question " ++ toString questionId ++ " not found in session") st
          | some session1 =>
            let st1 := storeSet st sessionId session1
            answerNext st1 sessionId session1
              (skippedEvaluation session1.currentDifficulty)
              session1.currentDifficulty interviewerOutcome pick
        else
          match recordAnswerCore session questionId transcript false with
          | none => .fail 500 ("Question " ++ toString questionId ++ " not found in session") st
          | some session1 =>
            let st1 := storeSet st sessionId session1
            match evaluatorOutcome with
            | .transportError msg => .fail 500 msg st1
            | outcome =>
              let evaluation : EvaluatorResponse :=
                match outcome with
                | .ok e => e
                | _ => evaluationFallback session1.currentDifficulty
              match recordEvaluationCore session1 questionId
                  (some { score := evaluation.score
                          nextDifficulty := evaluation.nextDifficulty
                          strengths := evaluation.strengths
                          weaknesses := evaluation.weaknesses
                          brief := evaluation.brief }) with
              | none => .fail 500 ("Question " ++ toString questionId ++ " not found") st1
              | some session2 =>
                let st2 := storeSet st1 sessionId session2
                answerNext st2 sessionId session2 evaluation
                  evaluation.nextDifficulty interviewerOutcome pick

/-! ## POST /api/interview/submit-code -/

def codePlaceholder : String := "// Write your solution here"

/-- `!code || code.trim().length < 10 || code.trim() === placeholder`. -/
def isEmptyCodeCheck (code : String) : Bool :=
  code.isEmpty || (jsTrimStr code).length < 10 || jsTrimStr code == codePlaceholder

/-- The `/submit-code` route.  The second component of the result records
whether `sendToAgent` was invoked for this submission: the source awaits
the code-reviewer call unconditionally, before the empty-code check is
even evaluated. -/
def submitCodeHandler (st : Store) (sessionId : String) (questionId : Nat)
    (code : String) (_language : Option String)
    (reviewerOutcome : AgentOutcome CodeReviewResponse) :
    HandlerOut CodeResponse × Bool :=
  if sessionId.isEmpty || questionId == 0 || code.isEmpty then
    (.fail 400 "sessionId, questionId, and code are required" st, false)
  else
    match storeGet st sessionId with
    | none => (.fail 404 "Session not found" st, false)
    | some session =>
      match session.questions.find? (fun q => q.id == questionId) with
      | none => (.fail 404 "Question not found" st, false)
      | some _codeQ =>
        match recordAnswerCore session questionId code false with
        | none => (.fail 500 ("Question " ++ toString questionId ++ " not found in session") st, false)
        | some session1 =>
          let st1 := storeSet st sessionId session1
          match reviewerOutcome with
          | .transportError msg => (.fail 500 msg st1, true)
          | outcome =>
            let isEmptyCode := isEmptyCodeCheck code
            let review : CodeReviewResponse :=
              if isEmptyCode then zeroCodeReview
              else
                match outcome with
                | .ok r => r
                | _ => codeReviewFallback
            match recordCodeReviewCore session1 questionId
                (some { score := review.score
                        correctness := review.correctness
                        timeComplexity := review.timeComplexity
                        spaceComplexity := review.spaceComplexity
                        strengths := review.strengths
                        issues := review.issues
                        brief := review.brief }) with
            | none => (.fail 500 ("Question " ++ toString questionId ++ " not found") st1, true)
            | some session2 =>
              (.ok { review := { score := review.score
                                 correctness := review.correctness
                                 timeComplexity := review.timeComplexity
                                 spaceComplexity := review.spaceComplexity
                                 strengths := review.strengths
                                 issues := review.issues
                                 brief := review.brief } }
                (storeSet st1 sessionId session2), true)

/-! ## POST /api/interview/complete -/

def padStart2 (s : String) : String :=
  if s.length ≥ 2 then s else if s.length = 1 then "0" ++ s else "00"

/-- The local `M:SS` duration string of the `/complete` route (minutes
unbounded, seconds zero-padded to two digits). -/
def formatTotalTime (durationMs : Nat) : String :=
  toString (durationMs / 60000) ++ ":" ++ padStart2 (toString (durationMs % 60000 / 1000))

/-- `Math.round(num / den)` for `den > 0` (half rounds up). -/
def jsRound (num den : Int) : Int :=
  Int.fdiv (2 * num + den) (2 * den)

/-- The fallback analysis the `/complete` route synthesizes from session
data when the analyst response is unparsable. -/
def buildFallbackAnalysis (session : InterviewSession) (totalTime : String) :
    Analysis :=
  let scores := session.questions.filterMap (fun q => q.evaluation.map (fun e => e.score))
  let avgScore : Int :=
    if scores.length > 0 then jsRound (scores.foldl (· + ·) 0) (scores.length : Int) else 0
  let codeScore : Int :=
    ((((session.questions.find? (fun q => q.codeReview.isSome)).bind
      (fun q => q.codeReview)).map (fun r => r.score)).getD 0)
  { overallScore := some (jsRound (avgScore + codeScore) 2)
    recommendation := some (if avgScore ≥ 80 then "Strong Hire"
      else if avgScore ≥ 65 then "Hire"
      else if avgScore ≥ 50 then "Maybe" else "No Hire")
    summary := some ("Candidate completed the " ++ session.role ++
      " interview. Average question score: " ++ toString avgScore ++
      "/100. Code challenge score: " ++ toString codeScore ++ "/100.")
    totalTime := some totalTime
    skillScores := some { reactFundamentals := avgScore
                          problemSolving := codeScore
                          technicalDepth := avgScore
                          codeQuality := codeScore
                          conceptualClarity := avgScore }
    questionResults := some (session.questions.map (fun q =>
      { question := orStr q.title (q.text.take 80)
        score := orInt (q.evaluation.map (fun e => e.score))
          (q.codeReview.map (fun r => r.score)) 0
        maxScore := 100
        feedback := orStr (q.evaluation.map (fun e => e.brief))
          (orStr (q.codeReview.map (fun r => r.brief)) "Completed") }))
    feedback := some (
      (session.questions.flatMap (fun q =>
        ((q.evaluation.map (fun e => e.strengths)).getD []).map
          (fun s => ({ type := "strength", text := s } : FeedbackItem)))) ++
      (session.questions.flatMap (fun q =>
        ((q.evaluation.map (fun e => e.weaknesses)).getD []).map
          (fun w => ({ type := "improvement", text := w } : FeedbackItem))))) }

/-- The `/complete` route.  `now` is the clock at completion; the
duration is `now - startedAt` (non-negative in the embedding, as in any
run with a monotone clock). -/
def completeHandler (st : Store) (sessionId : String) (now : Nat)
    (analystOutcome : AgentOutcome Analysis) : HandlerOut CompleteResponse :=
  if sessionId.isEmpty then .fail 400 "sessionId is required" st
  else
    match storeGet st sessionId with
    | none => .fail 404 "Session not found" st
    | some session =>
      let durationMs := now - session.startedAt
      let totalTime := formatTotalTime durationMs
      match analystOutcome with
      | .transportError msg => .fail 500 msg st
      | outcome =>
        let analysis : Analysis :=
          match outcome with
          | .ok a => a
          | _ => buildFallbackAnalysis session totalTime
        let analysis :=
          if strTruthy analysis.totalTime then analysis
          else { analysis with totalTime := some totalTime }
        match completeSession st sessionId now analysis with
        | .error msg => .fail 500 msg st
        | .ok st1 => .ok { analysis := analysis } st1

/-! ## JSON values (archestra.ts, `parseAgentJSON`)

String-level model of the agent gateway's JSON recovery.  The value model
covers JSON with integer numerals (the repository's agent schemas exchange
integer scores); a fractional or exponent numeral makes the strict parser
report an error rather than misparse. -/

inductive Json where
  | null
  | bool (b : Bool)
  | num (n : Int)
  | str (s : String)
  | arr (elems : List Json)
  | obj (fields : List (String × Json))
deriving Repr

def backquote : Char := Char.ofNat 96
def lbraceC : Char := Char.ofNat 123
def rbraceC : Char := Char.ofNat 125

/-- JSON token-level whitespace (RFC 8259). -/
def jsonWs (c : Char) : Bool :=
  c == '\t' || c == '\n' || c == '\r' || c == ' '

def isDigitC (c : Char) : Bool := '0' ≤ c && c ≤ '9'

def digitVal (c : Char) : Nat := c.toNat - 48

def hexVal (c : Char) : Option Nat :=
  if isDigitC c then some (digitVal c)
  else if 'a' ≤ c && c ≤ 'f' then some (c.toNat - 87)
  else if 'A' ≤ c && c ≤ 'F' then some (c.toNat - 55)
  else none

/-- The body of a JSON string literal, after the opening quote: returns the
decoded characters and the input after the closing quote.  The fuel (one
unit per decoded character; callers pass `length + 1`) only makes the
recursion structural — it can never run out, each step consuming at least
one input character. -/
def parseStringBody (fuel : Nat) (cs : List Char) :
    Except String (List Char × List Char) :=
  match fuel with
  | 0 => .error "Unterminated string in JSON"
  | fuel + 1 =>
    match cs with
    | [] => .error "Unterminated string in JSON"
    | c :: cs =>
      if c = '"' then .ok ([], cs)
      else if c = '\\' then
        match cs with
        | [] => .error "Bad escape in JSON"
        | e :: cs' =>
          if e = '"' then
            match parseStringBody fuel cs' with
            | .ok (b, r) => .ok ('"' :: b, r)
            | .error msg => .error msg
          else if e = '\\' then
            match parseStringBody fuel cs' with
            | .ok (b, r) => .ok ('\\' :: b, r)
            | .error msg => .error msg
          else if e = '/' then
            match parseStringBody fuel cs' with
            | .ok (b, r) => .ok ('/' :: b, r)
            | .error msg => .error msg
          else if e = 'b' then
            match parseStringBody fuel cs' with
            | .ok (b, r) => .ok (Char.ofNat 8 :: b, r)
            | .error msg => .error msg
          else if e = 'f' then
            match parseStringBody fuel cs' with
            | .ok (b, r) => .ok (Char.ofNat 12 :: b, r)
            | .error msg => .error msg
          else if e = 'n' then
            match parseStringBody fuel cs' with
            | .ok (b, r) => .ok ('\n' :: b, r)
            | .error msg => .error msg
          else if e = 'r' then
            match parseStringBody fuel cs' with
            | .ok (b, r) => .ok ('\r' :: b, r)
            | .error msg => .error msg
          else if e = 't' then
            match parseStringBody fuel cs' with
            | .ok (b, r) => .ok ('\t' :: b, r)
            | .error msg => .error msg
          else if e = 'u' then
            match cs' with
            | h1 :: h2 :: h3 :: h4 :: cs'' =>
              match hexVal h1, hexVal h2, hexVal h3, hexVal h4 with
              | some d1, some d2, some d3, some d4 =>
                let n := d1 * 4096 + d2 * 256 + d3 * 16 + d4
                if n < 0xD800 then
                  match parseStringBody fuel cs'' with
                  | .ok (b, r) => .ok (Char.ofNat n :: b, r)
                  | .error msg => .error msg
                else .error "Unsupported unicode escape in JSON"
              | _, _, _, _ => .error "Bad unicode escape in JSON"
            | _ => .error "Bad unicode escape in JSON"
          else .error "Bad escape in JSON"
      else
        match parseStringBody fuel cs with
        | .ok (b, r) => .ok (c :: b, r)
        | .error msg => .error msg

/-- An unsigned integer numeral token.  Rejects fractional and exponent
continuations instead of misreading them (model restriction). -/
def parseNatToken (cs : List Char) : Except String (Nat × List Char) :=
  let ds := cs.takeWhile isDigitC
  let rest := cs.dropWhile isDigitC
  if ds.isEmpty then .error "Invalid number in JSON"
  else if ds.head? = some '0' ∧ 1 < ds.length then .error "Invalid number in JSON"
  else
    match rest with
    | c :: _ =>
      if c = '.' || c = 'e' || c = 'E' then
        .error "Non-integer JSON numbers are outside the model"
      else .ok (ds.foldl (fun a c => a * 10 + digitVal c) 0, rest)
    | [] => .ok (ds.foldl (fun a c => a * 10 + digitVal c) 0, rest)

def parseNumberToken (cs : List Char) : Except String (Json × List Char) :=
  match cs with
  | [] => .error "Invalid number in JSON"
  | c :: rest =>
    if c = '-' then
      match parseNatToken rest with
      | .ok (n, r) => .ok (.num (-(n : Int)), r)
      | .error msg => .error msg
    else
      match parseNatToken cs with
      | .ok (n, r) => .ok (.num (n : Int), r)
      | .error msg => .error msg

mutual

/-- Strict JSON value parser (recursive descent, fuel-indexed). -/
def parseValue : Nat → List Char → Except String (Json × List Char)
  | 0, _ => .error "JSON nesting too deep"
  | fuel + 1, cs =>
    let cs := cs.dropWhile jsonWs
    match cs with
    | [] => .error "Unexpected end of JSON input"
    | c :: rest =>
      if c = lbraceC then
        let rest' := rest.dropWhile jsonWs
        match rest' with
        | [] => .error "Unexpected end of JSON input"
        | d :: rest'' =>
          if d = rbraceC then .ok (.obj [], rest'')
          else
            match parseMembers fuel rest' with
            | .ok (kvs, r) => .ok (.obj kvs, r)
            | .error msg => .error msg
      else if c = '[' then
        let rest' := rest.dropWhile jsonWs
        match rest' with
        | [] => .error "Unexpected end of JSON input"
        | d :: rest'' =>
          if d = ']' then .ok (.arr [], rest'')
          else
            match parseElements fuel rest' with
            | .ok (vs, r) => .ok (.arr vs, r)
            | .error msg => .error msg
      else if c = '"' then
        match parseStringBody (rest.length + 1) rest with
        | .ok (b, r) => .ok (.str (String.mk b), r)
        | .error msg => .error msg
      else if c = '-' || isDigitC c then parseNumberToken (c :: rest)
      else if c = 't' then
        if rest.take 3 = ['r', 'u', 'e'] then .ok (.bool true, rest.drop 3)
        else .error "Unexpected token in JSON"
      else if c = 'f' then
        if rest.take 4 = ['a', 'l', 's', 'e'] then .ok (.bool false, rest.drop 4)
        else .error "Unexpected token in JSON"
      else if c = 'n' then
        if rest.take 3 = ['u', 'l', 'l'] then .ok (.null, rest.drop 3)
        else .error "Unexpected token in JSON"
      else .error "Unexpected token in JSON"

/-- One or more comma-separated array elements, consuming the closing
bracket. -/
def parseElements : Nat → List Char → Except String (List Json × List Char)
  | 0, _ => .error "JSON nesting too deep"
  | fuel + 1, cs =>
    match parseValue fuel cs with
    | .error msg => .error msg
    | .ok (v, r) =>
      let r := r.dropWhile jsonWs
      match r with
      | [] => .error "Unexpected end of JSON input"
      | d :: r' =>
        if d = ',' then
          match parseElements fuel r' with
          | .ok (vs, rr) => .ok (v :: vs, rr)
          | .error msg => .error msg
        else if d = ']' then .ok ([v], r')
        else .error "Expected comma or bracket in JSON array"

/-- One or more comma-separated object members, consuming the closing
brace. -/
def parseMembers : Nat → List Char → Except String (List (String × Json) × List Char)
  | 0, _ => .error "JSON nesting too deep"
  | fuel + 1, cs =>
    let cs := cs.dropWhile jsonWs
    match cs with
    | [] => .error "Unexpected end of JSON input"
    | c :: rest =>
      if c = '"' then
        match parseStringBody (rest.length + 1) rest with
        | .error msg => .error msg
        | .ok (k, r) =>
          let r := r.dropWhile jsonWs
          match r with
          | [] => .error "Unexpected end of JSON input"
          | d :: r' =>
            if d = ':' then
              match parseValue fuel r' with
              | .error msg => .error msg
              | .ok (v, rr) =>
                let rr := rr.dropWhile jsonWs
                match rr with
                | [] => .error "Unexpected end of JSON input"
                | e :: rr' =>
                  if e = ',' then
                    match parseMembers fuel rr' with
                    | .ok (kvs, rrr) => .ok ((String.mk k, v) :: kvs, rrr)
                    | .error msg => .error msg
                  else if e = rbraceC then .ok ([(String.mk k, v)], rr')
                  else .error "Expected comma or brace in JSON object"
            else .error "Expected colon in JSON object"
      else .error "Expected string key in JSON object"

end

/-- `JSON.parse`: a value surrounded by optional whitespace and nothing
else.  The fuel `length + 1` never runs out, a value consuming at least
one character per level. -/
def jsonParseList (cs : List Char) : Except String Json :=
  match parseValue (cs.length + 1) cs with
  | .error msg => .error msg
  | .ok (v, r) =>
    if (r.dropWhile jsonWs).isEmpty then .ok v
    else .error "Unexpected non-whitespace character after JSON data"

/-! ## JSON serialisation (`JSON.stringify`, default spacing) -/

def hexDigit (n : Nat) : Char :=
  if n < 10 then Char.ofNat (48 + n) else Char.ofNat (87 + n)

/-- Character escaping of `JSON.stringify`: quote, backslash, the five
short escapes, `\u00XX` for remaining control characters. -/
def escapeChar (c : Char) : List Char :=
  if c = '"' then ['\\', '"']
  else if c = '\\' then ['\\', '\\']
  else if c = Char.ofNat 8 then ['\\', 'b']
  else if c = '\t' then ['\\', 't']
  else if c = '\n' then ['\\', 'n']
  else if c = Char.ofNat 12 then ['\\', 'f']
  else if c = '\r' then ['\\', 'r']
  else if c.toNat < 0x20 then
    ['\\', 'u', '0', '0', hexDigit (c.toNat / 16), hexDigit (c.toNat % 16)]
  else [c]

def escapeList (cs : List Char) : List Char := cs.flatMap escapeChar

/-- Decimal digits of a natural number. -/
def natToChars (n : Nat) : List Char :=
  if h : n < 10 then [Char.ofNat (48 + n)]
  else natToChars (n / 10) ++ [Char.ofNat (48 + n % 10)]
decreasing_by exact Nat.div_lt_self (by omega) (by omega)

def intToChars (i : Int) : List Char :=
  if i < 0 then '-' :: natToChars i.natAbs else natToChars i.natAbs

mutual

def stringifyL : Json → List Char
  | .null => ("null").data
  | .bool true => ("true").data
  | .bool false => ("false").data
  | .num n => intToChars n
  | .str s => '"' :: (escapeList s.data ++ ['"'])
  | .arr xs => '[' :: (stringifyElems xs ++ [']'])
  | .obj fs => lbraceC :: (stringifyFields fs ++ [rbraceC])

def stringifyElems : List Json → List Char
  | [] => []
  | x :: xs =>
    stringifyL x ++ (if xs.isEmpty then [] else [',']) ++ stringifyElems xs

def stringifyFields : List (String × Json) → List Char
  | [] => []
  | (k, v) :: fs =>
    '"' :: (escapeList k.data ++ '"' :: ':' :: stringifyL v) ++
      (if fs.isEmpty then [] else [',']) ++ stringifyFields fs

end

/-- `JSON.stringify` with default spacing. -/
def jsonStringify (v : Json) : String := String.mk (stringifyL v)

/-- A value `JSON.stringify` prints as a top-level object or array (the
serialisations that start with a brace or a bracket). -/
def Json.isCompound : Json → Bool
  | .obj _ => true
  | .arr _ => true
  | _ => false

mutual

/-- Fuel sufficient to parse a serialised value (the parser consumes one
fuel level per `parseValue`/`parseElements`/`parseMembers` call). -/
def needFuel : Json → Nat
  | .arr xs => needList xs + 1
  | .obj fs => needFields fs + 1
  | _ => 1

def needList : List Json → Nat
  | [] => 1
  | x :: xs => max (needFuel x) (needList xs) + 1

def needFields : List (String × Json) → Nat
  | [] => 1
  | (_, v) :: fs => max (needFuel v) (needFields fs) + 1

end

/-- A continuation after a numeral token: parsing a number followed by
`rest` stops exactly at `rest` when its head is not a digit or a
fraction/exponent marker. -/
def numSafe : List Char → Bool
  | [] => true
  | c :: _ => !(isDigitC c || c = '.' || c = 'e' || c = 'E')

/-! ## The `parseAgentJSON` cleaning pipeline (archestra.ts 370–393) -/

/-- `/^```(?:json)?\s*\n?/` removal (applied only when the text starts
with a fence): drop the three backquotes, an optional `json` tag, then the
greedy whitespace run (which subsumes the optional newline). -/
def stripLeadingFence (cs : List Char) : List Char :=
  let cs1 := cs.drop 3
  let cs2 := if cs1.take 4 = ['j', 's', 'o', 'n'] then cs1.drop 4 else cs1
  cs2.dropWhile jsWhitespace

/-- `/\n?\s*```$/` removal: when the text ends with three backquotes,
drop them and the whitespace run before them. -/
def stripTrailingFence (cs : List Char) : List Char :=
  let r := cs.reverse
  if r.take 3 = [backquote, backquote, backquote] then
    ((r.drop 3).dropWhile jsWhitespace).reverse
  else cs

/-- Length (from the front) of the segment of `cs` up to and including its
last closing brace, if any. -/
def lastBraceLen (cs : List Char) : Option Nat :=
  let r := cs.reverse.dropWhile (fun c => c ≠ rbraceC)
  if r.isEmpty then none else some r.length

/-- The greedy regex `/\{[\s\S]*\}/`: the substring from the first opening
brace to the last closing brace after it, if such a pair exists. -/
def braceSpan : List Char → Option (List Char)
  | [] => none
  | c :: rest =>
    if c = lbraceC then
      match lastBraceLen rest with
      | some k => some (c :: rest.take k)
      | none => braceSpan rest
    else braceSpan rest

/-- The cleaned text `parseAgentJSON` hands to `JSON.parse`: trim, strip a
backquote fence, and — when the remainder does not start with `{` or `[` —
substitute the greedy brace match when there is one. -/
def cleanAgentText (raw : String) : List Char :=
  let cleaned := jsTrimList raw.data
  let cleaned :=
    if cleaned.take 3 = [backquote, backquote, backquote] then
      stripTrailingFence (stripLeadingFence cleaned)
    else cleaned
  if cleaned.head? == some lbraceC || cleaned.head? == some '[' then cleaned
  else
    match braceSpan cleaned with
    | some m => m
    | none => cleaned

/-- `parseAgentJSON` from archestra.ts.  On parse failure the thrown error
wraps the underlying parser message (`Agent returned invalid JSON: ...`);
the truncated 300-character preview of the cleaned text goes to
`console.error` only. -/
def parseAgentJSON (raw : String) : Except String Json :=
  match jsonParseList (cleanAgentText raw) with
  | .ok v => .ok v
  | .error msg => .error ("Agent returned invalid JSON: " ++ msg)

/-! ## The recovery policy as the spec words it (§4.3, step 3)

Modelled from the spec: step (3) of the recovery policy reads "scan for
the first `{...}`-balanced substring and use that instead".  These
definitions exist solely to compare the specified policy against the
implemented one; everything above this point is translated from the
source. -/

/-- Scan for the closing brace matching `depth` already-open braces,
returning the consumed characters (closing brace included). -/
def matchBalanced (depth : Nat) : List Char → Option (List Char)
  | [] => none
  | c :: rest =>
    if c = lbraceC then
      match matchBalanced (depth + 1) rest with
      | some tail => some (c :: tail)
      | none => none
    else if c = rbraceC then
      if depth = 1 then some [c]
      else
        match matchBalanced (depth - 1) rest with
        | some tail => some (c :: tail)
        | none => none
    else
      match matchBalanced depth rest with
      | some tail => some (c :: tail)
      | none => none

/-- Modelled from the spec: the first brace-balanced `{...}` substring. -/
def firstBalancedSpan : List Char → Option (List Char)
  | [] => none
  | c :: rest =>
    if c = lbraceC then
      match matchBalanced 1 rest with
      | some tail => some (c :: tail)
      | none => firstBalancedSpan rest
    else firstBalancedSpan rest

/-- Modelled from the spec: the recovery pipeline of §4.3 with step (3)
taking the first balanced substring. -/
def parseAgentJSONSpec (raw : String) : Except String Json :=
  let cleaned := jsTrimList raw.data
  let cleaned :=
    if cleaned.take 3 = [backquote, backquote, backquote] then
      stripTrailingFence (stripLeadingFence cleaned)
    else cleaned
  let cleaned :=
    if cleaned.head? == some lbraceC || cleaned.head? == some '[' then cleaned
    else
      match firstBalancedSpan cleaned with
      | some m => m
      | none => cleaned
  match jsonParseList cleaned with
  | .ok v => .ok v
  | .error msg => .error ("Agent returned invalid JSON: " ++ msg)

/-! ## Store-operation sequences (for the dense-id invariant) -/

/-- The dense-id invariant of the spec: `questions[i].id == i+1` for every
index, i.e. the id sequence is exactly `1..N`. -/
def DenseIds (s : InterviewSession) : Prop :=
  s.questions.map (fun q => q.id) = List.range' 1 s.questions.length

/-- One operation of the session store. -/
inductive StoreOp where
  | create (newId : String) (now : Nat) (role company : String)
  | add (sessionId : String) (q : QuestionInput)
  | answer (sessionId : String) (questionId : Nat) (ans : String) (skipped : Bool)
  | eval (sessionId : String) (questionId : Nat) (e : Option Evaluation)
  | review (sessionId : String) (questionId : Nat) (r : Option CodeReview)
  | complete (sessionId : String) (now : Nat) (a : Analysis)
  | merge (sessionId : String) (u : SessionUpdate)

/-- Apply one store operation; a thrown `SessionNotFound`/`QuestionNotFound`
leaves the store unchanged (the store functions throw before mutating). -/
def applyOp (st : Store) : StoreOp → Store
  | .create newId now role company => (createSession st newId now role company).2
  | .add sessionId q =>
    match addQuestion st sessionId q with
    | .ok (_, st') => st'
    | .error _ => st
  | .answer sessionId questionId ans skipped =>
    match recordAnswer st sessionId questionId ans skipped with
    | .ok st' => st'
    | .error _ => st
  | .eval sessionId questionId e =>
    match recordEvaluation st sessionId questionId e with
    | .ok st' => st'
    | .error _ => st
  | .review sessionId questionId r =>
    match recordCodeReview st sessionId questionId r with
    | .ok st' => st'
    | .error _ => st
  | .complete sessionId now a =>
    match completeSession st sessionId now a with
    | .ok st' => st'
    | .error _ => st
  | .merge sessionId u =>
    match updateSession st sessionId u with
    | .ok (_, st') => st'
    | .error _ => st

def applyOps (st : Store) (ops : List StoreOp) : Store :=
  ops.foldl applyOp st

/-- A merge is id-safe when its payload supplies no question ids (every
supplied id is the falsy 0 — e.g. a payload of id-less question objects);
non-merge operations are always safe. -/
def opIdSafe : StoreOp → Bool
  | .merge _ u => (u.questions.getD []).all (fun q => q.id == 0)
  | _ => true

def zeroReviewView : ReviewView :=
  { score := 0, correctness := false, timeComplexity := "N/A",
    spaceComplexity := "N/A", strengths := [],
    issues := ["No code was submitted"],
    brief := "Candidate did not submit any code." }

def zeroCodeReviewRecord : CodeReview :=
  { score := 0, correctness := false, timeComplexity := "N/A",
    spaceComplexity := "N/A", strengths := [],
    issues := ["No code was submitted"],
    brief := "Candidate did not submit any code." }

/-! ## Claim-support definitions -/

/-- The id sequence `sanitizeQuestions` produces, at the level of the ids
alone: a truthy (nonzero) id is kept, a falsy id becomes `index + 1`. -/
def renumberFalsy : Nat → List Nat → List Nat
  | _, [] => []
  | i, n :: ns => (if n ≠ 0 then n else i + 1) :: renumberFalsy (i + 1) ns

instance denseIdsDecidable (s : InterviewSession) : Decidable (DenseIds s) := by
  unfold DenseIds
  exact inferInstance

/-- Every session in the store satisfies the dense-id invariant. -/
def StoreDense (st : Store) : Prop :=
  ∀ sid s, storeGet st sid = some s → DenseIds s

/-! ### Shared concrete fixtures for witnesses and counterexamples -/

def wQuestion : QuestionRecord :=
  { id := 1, type := .video, text := "Explain React state.", title := some "State",
    difficulty := .medium, starterCode := none, language := none, answer := none,
    skipped := none, evaluation := none, codeReview := none }

def wCodeQuestion : QuestionRecord :=
  { id := 2, type := .code, text := "Build a hook.", title := some "Hook",
    difficulty := .medium, starterCode := some "// Write your solution here\n",
    language := some "javascript", answer := none, skipped := none,
    evaluation := none, codeReview := none }

def wSession : InterviewSession :=
  { id := "s1", role := "Senior Frontend Engineer", company := "Nebula Systems",
    currentDifficulty := .medium, currentQuestionIndex := 2,
    totalVideoQuestions := 3, questions := [wQuestion, wCodeQuestion],
    startedAt := 0, completedAt := none, analysis := none }

def wStore : Store := storeSet emptyStore "s1" wSession

/-- A successful evaluation used by witnesses. -/
def sampleEval : EvaluatorResponse :=
  { score := 80, maxScore := 100, difficulty := .medium, nextDifficulty := .hard, strengths := ["clear"], weaknesses := [], brief := "good" }

/-- A successful code-review outcome used by witnesses. -/
def sampleReview : AgentOutcome CodeReviewResponse :=
  .ok { score := 70, maxScore := 100, correctness := true, timeComplexity := "O(1)", spaceComplexity := "O(1)", strengths := [], issues := [], brief := "ok" }



def scVideoQ (t : String) : InterviewerResponse :=
  { type := some .video, text := t, title := some t, difficulty := some .medium }

def scCodeQ : InterviewerResponse :=
  { type := some .code, text := "Build a useDebounce hook.", title := some "Challenge", difficulty := some .medium, starterCode := some "// start", language := some "javascript" }

/-- A concrete operation sequence exercising create, append, answer,
evaluation, and an id-less merge. -/
def c1Ops : List StoreOp :=
  [.create "s9" 0 "role" "co",
   .add "s9" { type := .video, text := "q1", title := none, difficulty := .medium },
   .add "s9" { type := .video, text := "q2", title := none, difficulty := .medium },
   .answer "s9" 1 "an answer" false,
   .eval "s9" 1 (some { score := 50, nextDifficulty := .easy, strengths := [], weaknesses := [], brief := "b" }),
   .merge "s9" { questions := some [{ wQuestion with id := 0 }, { wCodeQuestion with id := 0 }] }]

/-! # Theorems

Shared helper lemmas first, then one theorem per claim (with its witness
or counterexample where required). -/

theorem storeGet_storeSet_self (st : Store) (sessionId : String)
    (s : InterviewSession) :
    storeGet (storeSet st sessionId s) sessionId = some s := by
  simp [storeGet, storeSet]

theorem storeGet_storeSet_ne (st : Store) (k sessionId : String)
    (s : InterviewSession) (h : k ≠ sessionId) :
    storeGet (storeSet st sessionId s) k = storeGet st k := by
  simp [storeGet, storeSet, h]

theorem updateFirst_map (p : α → Bool) (f : α → α) (g : α → β)
    (hg : ∀ a, g (f a) = g a) :
    ∀ l : List α, (updateFirst p f l).map g = l.map g
  | [] => rfl
  | a :: as => by
    by_cases h : p a
    · simp [updateFirst, h, hg]
    · simp [updateFirst, h, updateFirst_map p f g hg as]

theorem updateFirst_length (p : α → Bool) (f : α → α) :
    ∀ l : List α, (updateFirst p f l).length = l.length
  | [] => rfl
  | a :: as => by
    by_cases h : p a
    · simp [updateFirst, h]
    · simp [updateFirst, h, updateFirst_length p f as]

theorem find?_updateFirst (p : α → Bool) (f : α → α)
    (hp : ∀ a, p (f a) = p a) :
    ∀ l : List α, (updateFirst p f l).find? p = (l.find? p).map f
  | [] => rfl
  | a :: as => by
    by_cases h : p a
    · rw [updateFirst, if_pos h, List.find?_cons_of_pos _ ((hp a).trans h),
        List.find?_cons_of_pos _ h, Option.map_some']
    · rw [updateFirst, if_neg h, List.find?_cons_of_neg _ h,
        List.find?_cons_of_neg _ h, find?_updateFirst p f hp as]

theorem any_of_find? {p : α → Bool} {l : List α} {a : α}
    (h : l.find? p = some a) : l.any p = true :=
  List.any_eq_true.mpr ⟨a, List.mem_of_find?_eq_some h, List.find?_some h⟩

theorem start_badJSON (st : Store) (newId : String) (now : Nat) (role company : String) :
    (startHandler st newId now role company .badJSON).statusOf = none ∧
    ((startHandler st newId now role company .badJSON).valueOf.map
      (fun r => r.question.text)) = some startFallbackQuestion.text := by
  simp [startHandler, createSession, addQuestion, storeGet_storeSet_self,
    HandlerOut.statusOf, HandlerOut.valueOf, addQuestionCore, QuestionRecord.toView]

theorem start_transport (st : Store) (newId : String) (now : Nat) (role company msg : String) :
    (startHandler st newId now role company (.transportError msg)).statusOf = some 500 := by
  simp [startHandler, createSession, HandlerOut.statusOf]

theorem any_updateFirst (p : α → Bool) (f : α → α)
    (hp : ∀ a, p (f a) = p a) :
    ∀ l : List α, (updateFirst p f l).any p = l.any p
  | [] => rfl
  | a :: as => by
    by_cases h : p a
    · simp [updateFirst, h, hp]
    · simp [updateFirst, h, hp, any_updateFirst p f hp as]

theorem answer_badJSON (st : Store) (sessionId : String) (questionId : Nat)
    (transcript : String) (session : InterviewSession) (q : QuestionRecord) (pick : Fin 3)
    (hs : sessionId.isEmpty = false) (hq : (questionId == 0) = false)
    (hget : storeGet st sessionId = some session)
    (hfind : session.questions.find? (fun q' => q'.id == questionId) = some q) :
    (answerHandler st sessionId questionId transcript false .badJSON .badJSON pick).statusOf = none ∧
    ((answerHandler st sessionId questionId transcript false .badJSON .badJSON pick).valueOf.map
      (fun r => r.evaluation.brief)) = some "Evaluation could not be completed." := by
  have h1 : session.questions.any (fun q' => q'.id == questionId) = true :=
    any_of_find? hfind
  have h2 : (updateFirst (fun q' => q'.id == questionId)
      (fun q => { q with answer := some transcript, skipped := some false })
      session.questions).any (fun q' => q'.id == questionId) = true := by
    rw [any_updateFirst (fun q' : QuestionRecord => q'.id == questionId)
      (fun q => { q with answer := some transcript, skipped := some false })
      (fun _ => rfl) session.questions]
    exact h1
  simp only [answerHandler, hs, hq, Bool.or_self, Bool.false_eq_true, if_false,
    hget, hfind, recordAnswerCore, recordEvaluationCore, answerNext,
    h1, h2, if_true, HandlerOut.statusOf, HandlerOut.valueOf, evaluationFallback,
    Option.map_some']
  exact ⟨trivial, trivial⟩

theorem answer_eval_transport (st : Store) (sessionId : String) (questionId : Nat)
    (transcript msg : String) (session : InterviewSession) (q : QuestionRecord)
    (iOut : AgentOutcome InterviewerResponse) (pick : Fin 3)
    (hs : sessionId.isEmpty = false) (hq : (questionId == 0) = false)
    (hget : storeGet st sessionId = some session)
    (hfind : session.questions.find? (fun q' => q'.id == questionId) = some q) :
    (answerHandler st sessionId questionId transcript false
      (.transportError msg) iOut pick).statusOf = some 500 := by
  simp only [answerHandler, hs, hq, Bool.or_self, Bool.false_eq_true, if_false,
    hget, hfind, recordAnswerCore, any_of_find? hfind, if_true,
    HandlerOut.statusOf]

theorem answer_interviewer_transport (st : Store) (sessionId : String) (questionId : Nat)
    (transcript msg : String) (session : InterviewSession) (q : QuestionRecord)
    (e : EvaluatorResponse) (pick : Fin 3)
    (hs : sessionId.isEmpty = false) (hq : (questionId == 0) = false)
    (hget : storeGet st sessionId = some session)
    (hfind : session.questions.find? (fun q' => q'.id == questionId) = some q) :
    (answerHandler st sessionId questionId transcript false
      (.ok e) (.transportError msg) pick).statusOf = some 500 := by
  have h1 : session.questions.any (fun q' => q'.id == questionId) = true :=
    any_of_find? hfind
  have h2 : (updateFirst (fun q' => q'.id == questionId)
      (fun q => { q with answer := some transcript, skipped := some false })
      session.questions).any (fun q' => q'.id == questionId) = true := by
    rw [any_updateFirst (fun q' : QuestionRecord => q'.id == questionId)
      (fun q => { q with answer := some transcript, skipped := some false })
      (fun _ => rfl) session.questions]
    exact h1
  simp only [answerHandler, hs, hq, Bool.or_self, Bool.false_eq_true, if_false,
    hget, hfind, recordAnswerCore, recordEvaluationCore, answerNext,
    h1, h2, if_true, HandlerOut.statusOf]

theorem submitCode_badJSON (st : Store) (sessionId : String) (questionId : Nat)
    (code : String) (language : Option String) (session : InterviewSession)
    (q : QuestionRecord)
    (hs : sessionId.isEmpty = false) (hq : (questionId == 0) = false)
    (hc : code.isEmpty = false)
    (hget : storeGet st sessionId = some session)
    (hfind : session.questions.find? (fun q' => q'.id == questionId) = some q)
    (hne : isEmptyCodeCheck code = false) :
    (submitCodeHandler st sessionId questionId code language .badJSON).1.statusOf = none ∧
    ((submitCodeHandler st sessionId questionId code language .badJSON).1.valueOf.map
      (fun r => r.review.brief)) = some "Code review could not be completed." := by
  have h1 : session.questions.any (fun q' => q'.id == questionId) = true :=
    any_of_find? hfind
  have h2 : (updateFirst (fun q' => q'.id == questionId)
      (fun q => { q with answer := some code, skipped := some false })
      session.questions).any (fun q' => q'.id == questionId) = true := by
    rw [any_updateFirst (fun q' : QuestionRecord => q'.id == questionId)
      (fun q => { q with answer := some code, skipped := some false })
      (fun _ => rfl) session.questions]
    exact h1
  simp only [submitCodeHandler, hs, hq, hc, Bool.or_self, Bool.false_eq_true, if_false,
    hget, hfind, recordAnswerCore, recordCodeReviewCore, hne,
    h1, h2, if_true, codeReviewFallback, HandlerOut.statusOf, HandlerOut.valueOf,
    Option.map_some']
  exact ⟨trivial, trivial⟩

theorem submitCode_transport (st : Store) (sessionId : String) (questionId : Nat)
    (code msg : String) (language : Option String) (session : InterviewSession)
    (q : QuestionRecord)
    (hs : sessionId.isEmpty = false) (hq : (questionId == 0) = false)
    (hc : code.isEmpty = false)
    (hget : storeGet st sessionId = some session)
    (hfind : session.questions.find? (fun q' => q'.id == questionId) = some q) :
    (submitCodeHandler st sessionId questionId code language
      (.transportError msg)).1.statusOf = some 500 := by
  simp only [submitCodeHandler, hs, hq, hc, Bool.or_self, Bool.false_eq_true, if_false,
    hget, hfind, recordAnswerCore, any_of_find? hfind, if_true, HandlerOut.statusOf]

theorem complete_badJSON (st : Store) (sessionId : String) (now : Nat)
    (session : InterviewSession)
    (hs : sessionId.isEmpty = false)
    (hget : storeGet st sessionId = some session) :
    (completeHandler st sessionId now .badJSON).statusOf = none ∧
    (completeHandler st sessionId now .badJSON).valueOf =
      some { analysis := (buildFallbackAnalysis session (formatTotalTime (now - session.startedAt))) } := by
  have htt : strTruthy (buildFallbackAnalysis session
      (formatTotalTime (now - session.startedAt))).totalTime = true := by
    simp only [buildFallbackAnalysis, strTruthy]
    have : (formatTotalTime (now - session.startedAt)).isEmpty = false := by
      rw [Bool.eq_false_iff]
      intro h
      rw [String.isEmpty_iff] at h
      have := congrArg String.length h
      simp [formatTotalTime, String.length_append] at this
      exact absurd this.1.2 (by decide)
    simp [this]
  simp only [completeHandler, hs, Bool.false_eq_true, if_false, hget,
    completeSession, storeGet_storeSet_self, htt, if_true,
    HandlerOut.statusOf, HandlerOut.valueOf]
  exact ⟨trivial, trivial⟩

theorem complete_transport (st : Store) (sessionId : String) (now : Nat)
    (msg : String) (session : InterviewSession)
    (hs : sessionId.isEmpty = false)
    (hget : storeGet st sessionId = some session) :
    (completeHandler st sessionId now (.transportError msg)).statusOf = some 500 := by
  simp only [completeHandler, hs, Bool.false_eq_true, if_false, hget,
    HandlerOut.statusOf]

/-! ### C2 -/

/-- C2: the claim states that every agent failure mode — transport failure
as well as unparsable JSON — is recovered locally and never surfaced as a
request failure.  Refuted: a transport failure (`sendToAgent` throwing on a
non-success HTTP status) escapes the parse-only `try`/`catch` and reaches
the route's outer catch, surfacing as a 500 response — here on a concrete
`/start` call. -/
theorem C2_counterexample :
    (startHandler emptyStore "s1" 0 "Senior Frontend Engineer" "Nebula Systems"
      (.transportError "Archestra A2A error (503): upstream down")).statusOf
      = some 500 := rfl

/-- C2 (amended): only unparsable-JSON agent failures are recovered with
the step's hand-authored fallback (the operation succeeds); a transport
failure propagates out of every handler and surfaces as a 500 request
failure — for `/start`, `/answer` (either agent call), `/submit-code`, and
`/complete`. -/
theorem C2_agent_failure_recovery :
    (∀ st newId now role company,
      (startHandler st newId now role company .badJSON).statusOf = none ∧
      ((startHandler st newId now role company .badJSON).valueOf.map
        (fun r => r.question.text)) = some startFallbackQuestion.text) ∧
    (∀ st newId now role company msg,
      (startHandler st newId now role company (.transportError msg)).statusOf
        = some 500) ∧
    (∀ st sessionId questionId transcript session q pick,
      sessionId.isEmpty = false → (questionId == 0) = false →
      storeGet st sessionId = some session →
      session.questions.find? (fun q' => q'.id == questionId) = some q →
      (answerHandler st sessionId questionId transcript false .badJSON .badJSON
        pick).statusOf = none ∧
      ((answerHandler st sessionId questionId transcript false .badJSON .badJSON
        pick).valueOf.map (fun r => r.evaluation.brief))
        = some "Evaluation could not be completed.") ∧
    (∀ st sessionId questionId transcript msg session q iOut pick,
      sessionId.isEmpty = false → (questionId == 0) = false →
      storeGet st sessionId = some session →
      session.questions.find? (fun q' => q'.id == questionId) = some q →
      (answerHandler st sessionId questionId transcript false
        (.transportError msg) iOut pick).statusOf = some 500) ∧
    (∀ st sessionId questionId transcript msg session q e pick,
      sessionId.isEmpty = false → (questionId == 0) = false →
      storeGet st sessionId = some session →
      session.questions.find? (fun q' => q'.id == questionId) = some q →
      (answerHandler st sessionId questionId transcript false
        (.ok e) (.transportError msg) pick).statusOf = some 500) ∧
    (∀ st sessionId questionId code language session q,
      sessionId.isEmpty = false → (questionId == 0) = false →
      code.isEmpty = false →
      storeGet st sessionId = some session →
      session.questions.find? (fun q' => q'.id == questionId) = some q →
      isEmptyCodeCheck code = false →
      (submitCodeHandler st sessionId questionId code language .badJSON).1.statusOf
        = none ∧
      ((submitCodeHandler st sessionId questionId code language
        .badJSON).1.valueOf.map (fun r => r.review.brief))
        = some "Code review could not be completed.") ∧
    (∀ st sessionId questionId code msg language session q,
      sessionId.isEmpty = false → (questionId == 0) = false →
      code.isEmpty = false →
      storeGet st sessionId = some session →
      session.questions.find? (fun q' => q'.id == questionId) = some q →
      (submitCodeHandler st sessionId questionId code language
        (.transportError msg)).1.statusOf = some 500) ∧
    (∀ st sessionId now session,
      sessionId.isEmpty = false →
      storeGet st sessionId = some session →
      (completeHandler st sessionId now .badJSON).statusOf = none ∧
      (completeHandler st sessionId now .badJSON).valueOf =
        some { analysis := (buildFallbackAnalysis session (formatTotalTime (now - session.startedAt))) }) ∧
    (∀ st sessionId now msg session,
      sessionId.isEmpty = false →
      storeGet st sessionId = some session →
      (completeHandler st sessionId now (.transportError msg)).statusOf
        = some 500) :=
  ⟨fun st newId now role company => start_badJSON st newId now role company,
   fun st newId now role company msg => start_transport st newId now role company msg,
   fun st sessionId questionId transcript session q pick hs hq hget hfind =>
     answer_badJSON st sessionId questionId transcript session q pick hs hq hget hfind,
   fun st sessionId questionId transcript msg session q iOut pick hs hq hget hfind =>
     answer_eval_transport st sessionId questionId transcript msg session q iOut pick
       hs hq hget hfind,
   fun st sessionId questionId transcript msg session q e pick hs hq hget hfind =>
     answer_interviewer_transport st sessionId questionId transcript msg session q e pick
       hs hq hget hfind,
   fun st sessionId questionId code language session q hs hq hc hget hfind hne =>
     submitCode_badJSON st sessionId questionId code language session q hs hq hc
       hget hfind hne,
   fun st sessionId questionId code msg language session q hs hq hc hget hfind =>
     submitCode_transport st sessionId questionId code msg language session q hs hq hc
       hget hfind,
   fun st sessionId now session hs hget =>
     complete_badJSON st sessionId now session hs hget,
   fun st sessionId now msg session hs hget =>
     complete_transport st sessionId now msg session hs hget⟩

/-- Witness for C2 (amended): the policy evaluated on a concrete store with
one session and two questions. -/
theorem C2_agent_failure_recovery_witness :
    ((startHandler emptyStore "w2" 5 "r" "c" .badJSON).statusOf = none) ∧
    ((answerHandler wStore "s1" 1 "my answer" false .badJSON .badJSON
      0).statusOf = none) ∧
    ((answerHandler wStore "s1" 1 "my answer" false
      (.transportError "boom") .badJSON 0).statusOf = some 500) ∧
    ((submitCodeHandler wStore "s1" 2 "const add = (a, b) => a + b; add(1, 2);"
      (some "javascript") .badJSON).1.statusOf = none) ∧
    ((completeHandler wStore "s1" 61000 .badJSON).statusOf = none) := by
  obtain ⟨h1, _h2, h3, h4, _h5, h6, _h7, h8, _h9⟩ := C2_agent_failure_recovery
  refine ⟨(h1 emptyStore "w2" 5 "r" "c").1, ?_, ?_, ?_, ?_⟩
  · exact (h3 wStore "s1" 1 "my answer" wSession wQuestion 0 rfl rfl rfl rfl).1
  · exact h4 wStore "s1" 1 "my answer" "boom" wSession wQuestion .badJSON 0 rfl rfl rfl rfl
  · exact (h6 wStore "s1" 2 "const add = (a, b) => a + b; add(1, 2);"
      (some "javascript") wSession wCodeQuestion rfl rfl rfl rfl rfl (by decide)).1
  · exact (h8 wStore "s1" 61000 wSession rfl rfl).1

/-- C3 (amended): a submission equal to the placeholder string (or shorter
than 10 trimmed characters) is recorded and returned with a zero-score,
`correctness = false` review — but the code-reviewer agent call is still
made (its result is discarded); only the response value, not the agent
traffic, is short-circuited.  (When that call fails in transport the
request fails with a 500 and no review is recorded; see C2.) -/
theorem C3_placeholder_zero_review (st : Store) (sessionId : String) (questionId : Nat)
    (code : String) (language : Option String) (session : InterviewSession)
    (q : QuestionRecord) (out : AgentOutcome CodeReviewResponse)
    (hs : sessionId.isEmpty = false) (hq : (questionId == 0) = false)
    (hc : code.isEmpty = false)
    (hget : storeGet st sessionId = some session)
    (hfind : session.questions.find? (fun q' => q'.id == questionId) = some q)
    (hempty : isEmptyCodeCheck code = true)
    (hout : out.isTransport = false) :
    ((submitCodeHandler st sessionId questionId code language out).1.valueOf.map
      (fun r => r.review)) = some zeroReviewView ∧
    ((storeGet ((submitCodeHandler st sessionId questionId code language out).1.storeOf)
      sessionId).bind (fun s' => s'.questions.find? (fun q' => q'.id == questionId))).map
      (fun q' => (q'.answer, q'.codeReview))
      = some (some code, some zeroCodeReviewRecord) ∧
    (submitCodeHandler st sessionId questionId code language out).2 = true := by
  have h1 : session.questions.any (fun q' => q'.id == questionId) = true :=
    any_of_find? hfind
  have hfind1 : (updateFirst (fun q' => q'.id == questionId)
      (fun q => { q with answer := some code, skipped := some false })
      session.questions).find? (fun q' => q'.id == questionId)
      = some { q with answer := some code, skipped := some false } := by
    rw [find?_updateFirst (fun q' : QuestionRecord => q'.id == questionId)
      (fun q => { q with answer := some code, skipped := some false })
      (fun _ => rfl) session.questions, hfind]
    rfl
  have h2 : (updateFirst (fun q' => q'.id == questionId)
      (fun q => { q with answer := some code, skipped := some false })
      session.questions).any (fun q' => q'.id == questionId) = true :=
    any_of_find? hfind1
  cases out with
  | transportError msg => simp [AgentOutcome.isTransport] at hout
  | badJSON =>
    simp only [submitCodeHandler, hs, hq, hc, Bool.or_self, Bool.false_eq_true,
      if_false, hget, hfind, recordAnswerCore, recordCodeReviewCore, hempty,
      h1, h2, if_true, zeroCodeReview, zeroReviewView, HandlerOut.statusOf, HandlerOut.valueOf,
      HandlerOut.storeOf, Option.map_some', storeGet_storeSet_self, Option.some_bind]
    refine ⟨trivial, ?_, trivial⟩
    rw [find?_updateFirst (fun q' : QuestionRecord => q'.id == questionId)
      (fun q => { q with codeReview := some { score := 0, correctness := false, timeComplexity := "N/A", spaceComplexity := "N/A", strengths := [], issues := ["No code was submitted"], brief := "Candidate did not submit any code." } })
      (fun _ => rfl), hfind1]
    rfl
  | ok r =>
    simp only [submitCodeHandler, hs, hq, hc, Bool.or_self, Bool.false_eq_true,
      if_false, hget, hfind, recordAnswerCore, recordCodeReviewCore, hempty,
      h1, h2, if_true, zeroCodeReview, zeroReviewView, HandlerOut.statusOf, HandlerOut.valueOf,
      HandlerOut.storeOf, Option.map_some', storeGet_storeSet_self, Option.some_bind]
    refine ⟨trivial, ?_, trivial⟩
    rw [find?_updateFirst (fun q' : QuestionRecord => q'.id == questionId)
      (fun q => { q with codeReview := some { score := 0, correctness := false, timeComplexity := "N/A", spaceComplexity := "N/A", strengths := [], issues := ["No code was submitted"], brief := "Candidate did not submit any code." } })
      (fun _ => rfl), hfind1]
    rfl

/-- C3: the claim states that no agent call is made for a placeholder
submission.  Refuted: the source awaits `sendToAgent` before the
empty-code check, so the agent is called and its (here successful,
high-scoring) result merely discarded. -/
theorem C3_counterexample :
    (submitCodeHandler wStore "s1" 2 codePlaceholder (some "javascript")
      (.ok { score := 95, maxScore := 100, correctness := true,
             timeComplexity := "O(1)", spaceComplexity := "O(1)",
             strengths := ["ok"], issues := [], brief := "Great." })).2 = true ∧
    ((submitCodeHandler wStore "s1" 2 codePlaceholder (some "javascript")
      (.ok { score := 95, maxScore := 100, correctness := true,
             timeComplexity := "O(1)", spaceComplexity := "O(1)",
             strengths := ["ok"], issues := [], brief := "Great." })).1.valueOf.map
      (fun r => r.review.score)) = some 0 := by
  exact ⟨rfl, by decide⟩

/-- Witness for C3 (amended): the placeholder submission on the concrete
store. -/
theorem C3_placeholder_zero_review_witness :
    ((submitCodeHandler wStore "s1" 2 codePlaceholder (some "javascript")
      .badJSON).1.valueOf.map (fun r => r.review)) = some zeroReviewView ∧
    (submitCodeHandler wStore "s1" 2 codePlaceholder (some "javascript")
      .badJSON).2 = true := by
  obtain ⟨h1, _h2, h3⟩ := C3_placeholder_zero_review wStore "s1" 2 codePlaceholder
    (some "javascript") wSession wCodeQuestion .badJSON rfl rfl (by decide) rfl rfl
    (by decide) rfl
  exact ⟨h1, h3⟩

theorem padStart2_length {s : String} (h : s.length ≤ 2) :
    (padStart2 s).length = 2 := by
  unfold padStart2
  split
  · omega
  · split
    · rw [String.length_append]
      have h1 : ("0" : String).length = 1 := rfl
      omega
    · decide

theorem secondsPart_lt (durationMs : Nat) : durationMs % 60000 / 1000 < 60 := by
  have h := Nat.mod_lt durationMs (show 0 < 60000 by norm_num)
  rw [Nat.div_lt_iff_lt_mul (show 0 < 1000 by norm_num)]
  omega

theorem natRepr_le_two : ∀ n : Nat, n < 60 → (toString n).length ≤ 2 := by decide

/-- C4 (amended): `complete` computes `totalTime` locally as `M:SS` with
the seconds zero-padded to two digits, and sets it into the final analysis
whenever the agent payload omits it (or supplies an empty string, or is
unparsable); but a truthy agent-supplied `totalTime` is kept — the local
value does not override it. -/
theorem C4_totalTime_policy :
    (∀ st sessionId now session (a : Analysis),
      sessionId.isEmpty = false → storeGet st sessionId = some session →
      strTruthy a.totalTime = false →
      ((completeHandler st sessionId now (.ok a)).valueOf.map
        (fun r => r.analysis.totalTime))
        = some (some (formatTotalTime (now - session.startedAt)))) ∧
    (∀ st sessionId now session,
      sessionId.isEmpty = false → storeGet st sessionId = some session →
      ((completeHandler st sessionId now .badJSON).valueOf.map
        (fun r => r.analysis.totalTime))
        = some (some (formatTotalTime (now - session.startedAt)))) ∧
    (∀ durationMs : Nat, durationMs % 60000 / 1000 < 60 ∧
      (padStart2 (toString (durationMs % 60000 / 1000))).length = 2 ∧
      formatTotalTime durationMs = toString (durationMs / 60000) ++ ":" ++
        padStart2 (toString (durationMs % 60000 / 1000))) := by
  refine ⟨?_, ?_, ?_⟩
  · intro st sessionId now session a hs hget ha
    simp only [completeHandler, hs, Bool.false_eq_true, if_false, hget, ha,
      completeSession, storeGet_storeSet_self, HandlerOut.valueOf, Option.map_some']
  · intro st sessionId now session hs hget
    have h := (complete_badJSON st sessionId now session hs hget).2
    rw [h]
    simp [buildFallbackAnalysis]
  · intro durationMs
    exact ⟨secondsPart_lt durationMs,
      padStart2_length (natRepr_le_two _ (secondsPart_lt durationMs)), rfl⟩

/-- C4: the claim states the locally computed `totalTime` is preserved even
when the agent's payload overrides it.  Refuted: `if (!analysis.totalTime)`
only fills a falsy field, so an agent payload carrying `totalTime = "99:9"`
is returned verbatim although the local value is `"0:00"`. -/
theorem C4_counterexample :
    ((completeHandler wStore "s1" 0 (.ok { totalTime := some "99:9" })).valueOf.map
      (fun r => r.analysis.totalTime)) = some (some "99:9") ∧
    formatTotalTime (0 - wSession.startedAt) = "0:00" ∧
    ("99:9" : String) ≠ "0:00" := ⟨rfl, rfl, by decide⟩

/-- Witness for C4 (amended): a payload lacking `totalTime` and an
unparsable payload both yield the locally computed `"1:01"` at 61 seconds
elapsed. -/
theorem C4_totalTime_policy_witness :
    ((completeHandler wStore "s1" 61000 (.ok {})).valueOf.map
      (fun r => r.analysis.totalTime)) = some (some "1:01") ∧
    ((completeHandler wStore "s1" 61000 .badJSON).valueOf.map
      (fun r => r.analysis.totalTime)) = some (some "1:01") ∧
    61000 % 60000 / 1000 < 60 := by
  obtain ⟨h1, h2, h3⟩ := C4_totalTime_policy
  refine ⟨?_, ?_, (h3 61000).1⟩
  · have := h1 wStore "s1" 61000 wSession {} rfl rfl rfl
    rw [this]
    rfl
  · have := h2 wStore "s1" 61000 wSession rfl rfl
    rw [this]
    rfl

theorem C6_probe_start (st : Store) (newId : String) (now : Nat)
    (role company : String) (outcome : AgentOutcome InterviewerResponse)
    (r : StartResponse)
    (h : (startHandler st newId now role company outcome).valueOf = some r) :
    r.totalQuestions = 4 := by
  cases outcome with
  | transportError msg =>
    simp [startHandler, HandlerOut.valueOf] at h
  | badJSON =>
    simp only [startHandler, createSession, addQuestion, storeGet_storeSet_self,
      HandlerOut.valueOf, Option.some_inj] at h
    rw [← h]
  | ok q =>
    simp only [startHandler, createSession, addQuestion, storeGet_storeSet_self,
      HandlerOut.valueOf, Option.some_inj] at h
    rw [← h]

theorem recordAnswerCore_pres {session s' : InterviewSession} {questionId : Nat}
    {ans : String} {sk : Bool}
    (h : recordAnswerCore session questionId ans sk = some s') :
    s'.totalVideoQuestions = session.totalVideoQuestions ∧
    s'.currentDifficulty = session.currentDifficulty ∧
    s'.startedAt = session.startedAt := by
  unfold recordAnswerCore at h
  split at h
  · injection h with h
    subst h
    exact ⟨rfl, rfl, rfl⟩
  · cases h

theorem recordEvaluationCore_pres {session s' : InterviewSession} {questionId : Nat}
    {ev : Option Evaluation}
    (h : recordEvaluationCore session questionId ev = some s') :
    s'.totalVideoQuestions = session.totalVideoQuestions ∧
    s'.currentDifficulty = (match ev with
      | some e => e.nextDifficulty
      | none => session.currentDifficulty) := by
  unfold recordEvaluationCore at h
  split at h
  · injection h with h
    subst h
    refine ⟨rfl, ?_⟩
    cases ev <;> rfl
  · cases h

theorem recordCodeReviewCore_pres {session s' : InterviewSession} {questionId : Nat}
    {rv : Option CodeReview}
    (h : recordCodeReviewCore session questionId rv = some s') :
    s'.totalVideoQuestions = session.totalVideoQuestions ∧
    s'.currentDifficulty = session.currentDifficulty := by
  unfold recordCodeReviewCore at h
  split at h
  · injection h with h
    subst h
    exact ⟨rfl, rfl⟩
  · cases h

theorem valueOf_fail_ne {α : Type} {status : Nat} {error : String} {st : Store}
    {r : α} : ¬ ((HandlerOut.fail status error st : HandlerOut α).valueOf = some r) := by
  simp [HandlerOut.valueOf]

theorem answerNext_tvq {st : Store} {sessionId : String} {session : InterviewSession}
    {evaluation : EvaluatorResponse} {nextDifficulty : Difficulty}
    {iOut : AgentOutcome InterviewerResponse} {pick : Fin 3} {r : AnswerResponse}
    (h : (answerNext st sessionId session evaluation nextDifficulty iOut
      pick).valueOf = some r) :
    r.totalQuestions = session.totalVideoQuestions + 1 := by
  unfold answerNext at h
  split at h
  all_goals try exact absurd h valueOf_fail_ne
  all_goals simp only [addQuestionCore, HandlerOut.valueOf] at h
  all_goals split at h
  all_goals injection h with h
  all_goals rw [← h]

theorem C6_probe_answer (st : Store) (sessionId : String) (questionId : Nat)
    (transcript : String) (skipped : Bool)
    (eOut : AgentOutcome EvaluatorResponse) (iOut : AgentOutcome InterviewerResponse)
    (pick : Fin 3) (session : InterviewSession) (r : AnswerResponse)
    (hget : storeGet st sessionId = some session)
    (h : (answerHandler st sessionId questionId transcript skipped eOut iOut
      pick).valueOf = some r) :
    r.totalQuestions = session.totalVideoQuestions + 1 := by
  unfold answerHandler at h
  split at h
  · exact absurd h valueOf_fail_ne
  · split at h
    · exact absurd h valueOf_fail_ne
    · rename_i session' heq
      rw [hget] at heq
      injection heq with heq
      subst heq
      split at h
      · exact absurd h valueOf_fail_ne
      · split at h
        · split at h
          · exact absurd h valueOf_fail_ne
          · rename_i session1 hrec
            simp only [] at h
            exact (answerNext_tvq h).trans (by rw [(recordAnswerCore_pres hrec).1])
        · split at h
          · exact absurd h valueOf_fail_ne
          · rename_i session1 hrec
            split at h
            all_goals try exact absurd h valueOf_fail_ne
            all_goals simp only [] at h
            all_goals split at h
            all_goals try exact absurd h valueOf_fail_ne
            all_goals rename_i session2 hev
            all_goals exact (answerNext_tvq h).trans (by rw [(recordEvaluationCore_pres hev).1, (recordAnswerCore_pres hrec).1])

/-- C6: every successful `/start` response carries `totalQuestions = 4`,
every successful `/answer` response carries `totalQuestions =
totalVideoQuestions + 1` for the stored session, and `createSession` fixes
`totalVideoQuestions = 3`. -/
theorem C6_totalQuestions :
    (∀ st newId now role company outcome r,
      (startHandler st newId now role company outcome).valueOf = some r →
      r.totalQuestions = 4) ∧
    (∀ st sessionId questionId transcript skipped eOut iOut pick session r,
      storeGet st sessionId = some session →
      (answerHandler st sessionId questionId transcript skipped eOut iOut
        pick).valueOf = some r →
      r.totalQuestions = session.totalVideoQuestions + 1) ∧
    (∀ st newId now role company,
      (createSession st newId now role company).1.totalVideoQuestions = 3) :=
  ⟨fun st newId now role company outcome r h =>
      C6_probe_start st newId now role company outcome r h,
   fun st sessionId questionId transcript skipped eOut iOut pick session r
      hget h =>
      C6_probe_answer st sessionId questionId transcript skipped eOut iOut pick
        session r hget h,
   fun _ _ _ _ _ => rfl⟩

/-- Witness for C6: concrete `/start` and `/answer` calls. -/
theorem C6_totalQuestions_witness :
    ((startHandler emptyStore "w6" 0 "r" "c" .badJSON).valueOf.map
      (fun r => r.totalQuestions)) = some 4 ∧
    ((answerHandler wStore "s1" 1 "an answer" false .badJSON .badJSON
      0).valueOf.map (fun r => r.totalQuestions))
      = some (wSession.totalVideoQuestions + 1) := by
  obtain ⟨h1, h2, _h3⟩ := C6_totalQuestions
  constructor
  · cases hv : (startHandler emptyStore "w6" 0 "r" "c" .badJSON).valueOf with
    | none => exact absurd hv (by decide)
    | some r =>
      rw [Option.map_some', h1 emptyStore "w6" 0 "r" "c" .badJSON r hv]
  · cases hv : (answerHandler wStore "s1" 1 "an answer" false .badJSON .badJSON
        0).valueOf with
    | none => exact absurd hv (by decide)
    | some r =>
      rw [Option.map_some',
        h2 wStore "s1" 1 "an answer" false .badJSON .badJSON 0 wSession r rfl hv]

theorem answerNext_storeOf_diff {st : Store} {sid : String}
    {session : InterviewSession} {ev : EvaluatorResponse} {nd : Difficulty}
    {iOut : AgentOutcome InterviewerResponse} {pick : Fin 3}
    {s' : InterviewSession}
    (hst : storeGet st sid = some session)
    (h : storeGet ((answerNext st sid session ev nd iOut pick).storeOf) sid
      = some s') :
    s'.currentDifficulty = session.currentDifficulty := by
  unfold answerNext at h
  split at h
  · simp only [HandlerOut.storeOf] at h
    rw [hst] at h
    injection h with h
    subst h
    rfl
  · simp only [addQuestionCore, HandlerOut.storeOf] at h
    split at h
    all_goals rw [storeGet_storeSet_self] at h
    all_goals injection h with h
    all_goals subst h
    all_goals rfl

theorem C5_skipped_probe (st : Store) (sid : String) (qid : Nat)
    (transcript : String) (eOut : AgentOutcome EvaluatorResponse)
    (iOut : AgentOutcome InterviewerResponse) (pick : Fin 3)
    (session s' : InterviewSession)
    (hget : storeGet st sid = some session)
    (hs' : storeGet ((answerHandler st sid qid transcript true eOut iOut
      pick).storeOf) sid = some s') :
    s'.currentDifficulty = session.currentDifficulty := by
  unfold answerHandler at hs'
  split at hs'
  · simp only [HandlerOut.storeOf] at hs'
    rw [hget] at hs'
    injection hs' with hs'
    subst hs'
    rfl
  · split at hs'
    · rename_i heq
      rw [hget] at heq
      exact Option.noConfusion heq
    · rename_i session'' heq
      rw [hget] at heq
      injection heq with heq
      subst heq
      split at hs'
      · simp only [HandlerOut.storeOf] at hs'
        rw [hget] at hs'
        injection hs' with hs'
        subst hs'
        rfl
      · split at hs'
        · split at hs'
          · simp only [HandlerOut.storeOf] at hs'
            rw [hget] at hs'
            injection hs' with hs'
            subst hs'
            rfl
          · rename_i session1 hrec
            simp only [] at hs'
            exact (answerNext_storeOf_diff (storeGet_storeSet_self st sid session1) hs').trans ((recordAnswerCore_pres hrec).2.1)
        · rename_i hcond
          exact absurd rfl hcond

/-- C5: the claim states that no store operation other than
`record_evaluation` changes `currentDifficulty`, naming
`merge_external_update` among the innocuous ones.  Refuted:
`updateSession` is a shallow merge, so a payload carrying
`currentDifficulty` replaces it — here `hard` over a `medium` session. -/
theorem C5_counterexample :
    ((updateSession wStore "s1" { currentDifficulty := some .hard }).map
      (fun p => p.1.currentDifficulty)) = Except.ok Difficulty.hard ∧
    wSession.currentDifficulty = Difficulty.medium ∧
    Difficulty.hard ≠ Difficulty.medium := ⟨rfl, rfl, by decide⟩

/-- C5 (amended): `currentDifficulty` changes only through
`record_evaluation` (which sets it to the evaluation's `nextDifficulty`)
or through a `merge_external_update` payload that itself supplies a
`currentDifficulty`; `record_answer`, `record_code_review`,
`append_question`, `complete` and merges without the field preserve it,
and a `submit_answer` call with `skipped = true` leaves it unchanged. -/
theorem C5_difficulty_policy :
    (∀ session questionId ans sk s',
      recordAnswerCore session questionId ans sk = some s' →
      s'.currentDifficulty = session.currentDifficulty) ∧
    (∀ session questionId rv s',
      recordCodeReviewCore session questionId rv = some s' →
      s'.currentDifficulty = session.currentDifficulty) ∧
    (∀ session now a,
      (completeSessionCore session now a).currentDifficulty
        = session.currentDifficulty) ∧
    (∀ session q,
      (addQuestionCore session q).2.currentDifficulty
        = session.currentDifficulty) ∧
    (∀ session questionId e s',
      recordEvaluationCore session questionId (some e) = some s' →
      s'.currentDifficulty = e.nextDifficulty) ∧
    (∀ session updates,
      updates.currentDifficulty = none →
      (updateSessionCore session updates).currentDifficulty
        = session.currentDifficulty) ∧
    (∀ st sid qid transcript eOut iOut pick session s',
      storeGet st sid = some session →
      storeGet ((answerHandler st sid qid transcript true eOut iOut
        pick).storeOf) sid = some s' →
      s'.currentDifficulty = session.currentDifficulty) :=
  ⟨fun session questionId ans sk s' h => (recordAnswerCore_pres h).2.1,
   fun session questionId rv s' h => (recordCodeReviewCore_pres h).2,
   fun _ _ _ => rfl,
   fun _ _ => rfl,
   fun session questionId e s' h => (recordEvaluationCore_pres h).2,
   fun session updates h => by
     simp only [updateSessionCore, h, Option.getD_none],
   fun st sid qid transcript eOut iOut pick session s' hget hs' =>
     C5_skipped_probe st sid qid transcript eOut iOut pick session s' hget hs'⟩

/-- Witness for C5 (amended): preservation and the evaluation step on the
concrete session, plus a concrete skipped `/answer` call. -/
theorem C5_difficulty_policy_witness :
    (recordAnswerCore wSession 1 "hello" false).map
      (fun s' => s'.currentDifficulty) = some Difficulty.medium ∧
    (recordEvaluationCore wSession 1
      (some { score := 90, nextDifficulty := .hard, strengths := [],
              weaknesses := [], brief := "b" })).map
      (fun s' => s'.currentDifficulty) = some Difficulty.hard ∧
    (updateSessionCore wSession {}).currentDifficulty = Difficulty.medium ∧
    (storeGet ((answerHandler wStore "s1" 1 "" true .badJSON .badJSON
      0).storeOf) "s1").map (fun s' => s'.currentDifficulty)
      = some Difficulty.medium := by
  obtain ⟨h1, _h2, _h3, _h4, h5, h6, h7⟩ := C5_difficulty_policy
  refine ⟨?_, ?_, ?_, ?_⟩
  · cases hv : recordAnswerCore wSession 1 "hello" false with
    | none => exact absurd hv (by decide)
    | some s' =>
      rw [Option.map_some', h1 wSession 1 "hello" false s' hv]
      rfl
  · cases hv : recordEvaluationCore wSession 1
        (some { score := 90, nextDifficulty := .hard, strengths := [],
                weaknesses := [], brief := "b" }) with
    | none => exact absurd hv (by decide)
    | some s' =>
      rw [Option.map_some', h5 wSession 1 _ s' hv]
  · exact h6 wSession {} rfl
  · cases hv : storeGet ((answerHandler wStore "s1" 1 "" true .badJSON
        .badJSON 0).storeOf) "s1" with
    | none => exact absurd hv (by decide)
    | some s' =>
      rw [Option.map_some',
        h7 wStore "s1" 1 "" .badJSON .badJSON 0 wSession s' rfl hv]
      rfl

theorem storeGet_storeSet (st : Store) (k sid : String) (s : InterviewSession) :
    storeGet (storeSet st sid s) k = if k = sid then some s else storeGet st k := by
  simp [storeGet, storeSet]

theorem sanitizeQuestions_map_id : ∀ (i : Nat) (qs : List QuestionRecord),
    (sanitizeQuestions i qs).map (fun q => q.id)
      = renumberFalsy i (qs.map (fun q => q.id))
  | _, [] => rfl
  | i, q :: qs => by
    simp [sanitizeQuestions, renumberFalsy, sanitizeQuestions_map_id (i + 1) qs]

theorem renumberFalsy_of_pos : ∀ (i : Nat) (ns : List Nat),
    (∀ n ∈ ns, n ≠ 0) → renumberFalsy i ns = ns
  | _, [], _ => rfl
  | i, n :: ns, h => by
    simp only [renumberFalsy, if_pos (h n (List.mem_cons_self n ns))]
    rw [renumberFalsy_of_pos (i + 1) ns (fun m hm => h m (List.mem_cons_of_mem n hm))]

theorem renumberFalsy_of_zero : ∀ (i : Nat) (ns : List Nat),
    (∀ n ∈ ns, n = 0) → renumberFalsy i ns = List.range' (i + 1) ns.length
  | _, [], _ => rfl
  | i, n :: ns, h => by
    have hn : n = 0 := h n (List.mem_cons_self n ns)
    simp only [renumberFalsy, hn, ne_eq, not_true_eq_false, if_false,
      List.length_cons, List.range'_succ]
    rw [renumberFalsy_of_zero (i + 1) ns (fun m hm => h m (List.mem_cons_of_mem n hm))]

theorem denseIds_ids_pos {s : InterviewSession} (h : DenseIds s) :
    ∀ n ∈ s.questions.map (fun q => q.id), n ≠ 0 := by
  intro n hn
  rw [DenseIds] at h
  rw [h] at hn
  have := List.mem_range'_1.mp hn
  omega

theorem renumberFalsy_length : ∀ (i : Nat) (ns : List Nat),
    (renumberFalsy i ns).length = ns.length
  | _, [] => rfl
  | i, _ :: ns => by simp [renumberFalsy, renumberFalsy_length (i + 1) ns]

theorem sanitizeQuestions_length (i : Nat) (qs : List QuestionRecord) :
    (sanitizeQuestions i qs).length = qs.length := by
  have h := congrArg List.length (sanitizeQuestions_map_id i qs)
  simpa [renumberFalsy_length] using h

theorem denseIds_addQuestionCore {session : InterviewSession} {q : QuestionInput}
    (h : DenseIds session) : DenseIds (addQuestionCore session q).2 := by
  unfold DenseIds at h ⊢
  simp only [addQuestionCore, List.map_append, List.map_cons, List.map_nil,
    List.length_append, List.length_cons, List.length_nil]
  rw [h, List.range'_concat]
  simp [Nat.add_comm]

theorem denseIds_updateFirst {session s' : InterviewSession} {p : QuestionRecord → Bool}
    {f : QuestionRecord → QuestionRecord}
    (hqs : s'.questions = updateFirst p f session.questions)
    (hf : ∀ q, (f q).id = q.id)
    (h : DenseIds session) : DenseIds s' := by
  unfold DenseIds at h ⊢
  rw [hqs, updateFirst_map p f (fun q => q.id) hf, updateFirst_length, h]

theorem updateSessionCore_denseIds {session : InterviewSession}
    {updates : SessionUpdate}
    (h : DenseIds session)
    (hsafe : (updates.questions.getD []).all (fun q => q.id == 0) = true) :
    DenseIds (updateSessionCore session updates) := by
  unfold DenseIds updateSessionCore
  cases hq : updates.questions with
  | none =>
    simp only [hq, Option.getD_none]
    rw [sanitizeQuestions_map_id, sanitizeQuestions_length,
      renumberFalsy_of_pos 0 _ (denseIds_ids_pos h)]
    exact h
  | some qs =>
    rw [hq] at hsafe
    simp only [hq, Option.getD_some] at hsafe ⊢
    rw [sanitizeQuestions_map_id, sanitizeQuestions_length,
      renumberFalsy_of_zero 0 _ ?_]
    · simp
    · intro n hn
      obtain ⟨q, hq', rfl⟩ := List.mem_map.mp hn
      have := List.all_eq_true.mp hsafe q hq'
      simpa using this

theorem recordAnswerCore_denseIds {session s' : InterviewSession} {qid : Nat}
    {ans : String} {sk : Bool}
    (hrec : recordAnswerCore session qid ans sk = some s')
    (h : DenseIds session) : DenseIds s' := by
  unfold recordAnswerCore at hrec
  split at hrec
  · injection hrec with hrec
    subst hrec
    exact denseIds_updateFirst rfl (fun q => rfl) h
  · cases hrec

theorem recordEvaluationCore_denseIds {session s' : InterviewSession} {qid : Nat}
    {ev : Option Evaluation}
    (hrec : recordEvaluationCore session qid ev = some s')
    (h : DenseIds session) : DenseIds s' := by
  unfold recordEvaluationCore at hrec
  split at hrec
  · injection hrec with hrec
    subst hrec
    exact denseIds_updateFirst rfl (fun q => rfl) h
  · cases hrec

theorem recordCodeReviewCore_denseIds {session s' : InterviewSession} {qid : Nat}
    {rv : Option CodeReview}
    (hrec : recordCodeReviewCore session qid rv = some s')
    (h : DenseIds session) : DenseIds s' := by
  unfold recordCodeReviewCore at hrec
  split at hrec
  · injection hrec with hrec
    subst hrec
    exact denseIds_updateFirst rfl (fun q => rfl) h
  · cases hrec

theorem applyOp_storeDense {st : Store} {op : StoreOp}
    (hsafe : opIdSafe op = true) (h : StoreDense st) :
    StoreDense (applyOp st op) := by
  cases op with
  | create newId now role company =>
    intro sid s hs
    simp only [applyOp, createSession] at hs
    rw [storeGet_storeSet] at hs
    split at hs
    · injection hs with hs
      subst hs
      rfl
    · exact h sid s hs
  | add sid' q =>
    intro sid s hs
    simp only [applyOp, addQuestion] at hs
    cases hget : storeGet st sid' with
    | none => rw [hget] at hs; exact h sid s hs
    | some session =>
      rw [hget] at hs
      simp only [] at hs
      rw [storeGet_storeSet] at hs
      split at hs
      · injection hs with hs
        subst hs
        exact denseIds_addQuestionCore (h sid' session hget)
      · exact h sid s hs
  | answer sid' qid ans sk =>
    intro sid s hs
    simp only [applyOp, recordAnswer] at hs
    cases hget : storeGet st sid' with
    | none => rw [hget] at hs; exact h sid s hs
    | some session =>
      rw [hget] at hs
      simp only [] at hs
      cases hrec : recordAnswerCore session qid ans sk with
      | none => rw [hrec] at hs; exact h sid s hs
      | some session' =>
        rw [hrec] at hs
        simp only [] at hs
        rw [storeGet_storeSet] at hs
        split at hs
        · injection hs with hs
          subst hs
          exact recordAnswerCore_denseIds hrec (h sid' session hget)
        · exact h sid s hs
  | eval sid' qid e =>
    intro sid s hs
    simp only [applyOp, recordEvaluation] at hs
    cases hget : storeGet st sid' with
    | none => rw [hget] at hs; exact h sid s hs
    | some session =>
      rw [hget] at hs
      simp only [] at hs
      cases hrec : recordEvaluationCore session qid e with
      | none => rw [hrec] at hs; exact h sid s hs
      | some session' =>
        rw [hrec] at hs
        simp only [] at hs
        rw [storeGet_storeSet] at hs
        split at hs
        · injection hs with hs
          subst hs
          exact recordEvaluationCore_denseIds hrec (h sid' session hget)
        · exact h sid s hs
  | review sid' qid r =>
    intro sid s hs
    simp only [applyOp, recordCodeReview] at hs
    cases hget : storeGet st sid' with
    | none => rw [hget] at hs; exact h sid s hs
    | some session =>
      rw [hget] at hs
      simp only [] at hs
      cases hrec : recordCodeReviewCore session qid r with
      | none => rw [hrec] at hs; exact h sid s hs
      | some session' =>
        rw [hrec] at hs
        simp only [] at hs
        rw [storeGet_storeSet] at hs
        split at hs
        · injection hs with hs
          subst hs
          exact recordCodeReviewCore_denseIds hrec (h sid' session hget)
        · exact h sid s hs
  | complete sid' now a =>
    intro sid s hs
    simp only [applyOp, completeSession] at hs
    cases hget : storeGet st sid' with
    | none => rw [hget] at hs; exact h sid s hs
    | some session =>
      rw [hget] at hs
      simp only [] at hs
      rw [storeGet_storeSet] at hs
      split at hs
      · injection hs with hs
        subst hs
        exact h sid' session hget
      · exact h sid s hs
  | merge sid' u =>
    intro sid s hs
    simp only [applyOp, updateSession] at hs
    cases hget : storeGet st sid' with
    | none => rw [hget] at hs; exact h sid s hs
    | some session =>
      rw [hget] at hs
      simp only [] at hs
      rw [storeGet_storeSet] at hs
      split at hs
      · injection hs with hs
        subst hs
        exact updateSessionCore_denseIds (h sid' session hget)
          (by simpa [opIdSafe] using hsafe)
      · exact h sid s hs

theorem applyOps_storeDense : ∀ (ops : List StoreOp) (st : Store),
    (∀ op ∈ ops, opIdSafe op = true) → StoreDense st →
    StoreDense (applyOps st ops)
  | [], _, _, h => h
  | op :: ops, st, hsafe, h =>
    applyOps_storeDense ops (applyOp st op)
      (fun o ho => hsafe o (List.mem_cons_of_mem op ho))
      (applyOp_storeDense (hsafe op (List.mem_cons_self op ops)) h)

theorem emptyStore_storeDense : StoreDense emptyStore := by
  intro sid s hs
  exact Option.noConfusion hs


/-- C1: the claim states that `merge_external_update` re-numbers the
question sequence densely `1..N` regardless of the ids the external
payload supplied.  Refuted: `q.id || (index + 1)` keeps any truthy
supplied id — a payload question carrying id 99 survives the merge, and
the resulting id sequence `[99]` is not `1..N`. -/
theorem C1_counterexample :
    ((updateSession wStore "s1" { questions := some [{ wQuestion with id := 99 }] }).map
      (fun p => p.1.questions.map (fun q => q.id))) = Except.ok [99] ∧
    ([99] : List Nat) ≠ List.range' 1 1 := ⟨rfl, by decide⟩

/-- C1 (amended): `merge_external_update` re-numbers to `index + 1` only
the entries whose supplied id is falsy (0/missing) and keeps truthy
supplied ids verbatim; consequently the dense-id invariant
`questions[i].id == i+1` holds after any sequence of store operations
whose merges supply only id-less questions (and in particular after any
merge-free sequence), but not after merges carrying foreign nonzero ids. -/
theorem C1_dense_ids :
    (∀ session updates,
      (updateSessionCore session updates).questions.map (fun q => q.id)
        = renumberFalsy 0 ((updates.questions.getD session.questions).map
          (fun q => q.id))) ∧
    (∀ ops, (∀ op ∈ ops, opIdSafe op = true) →
      ∀ sid s, storeGet (applyOps emptyStore ops) sid = some s →
        DenseIds s) :=
  ⟨fun session updates => by
     unfold updateSessionCore
     exact sanitizeQuestions_map_id 0 _,
   fun ops hsafe sid s hs =>
     applyOps_storeDense ops emptyStore hsafe emptyStore_storeDense sid s hs⟩

/-- Witness for C1 (amended): a concrete sequence ending in an id-less
merge keeps the store dense, and the sanitisation keeps a truthy id while
filling a falsy one. -/
theorem C1_dense_ids_witness :
    ((storeGet (applyOps emptyStore c1Ops) "s9").map
      (fun s => decide (DenseIds s))) = some true ∧
    (updateSessionCore wSession { questions := some [{ wQuestion with id := 7 }, { wCodeQuestion with id := 0 }] }).questions.map
      (fun q => q.id) = [7, 2] := by
  obtain ⟨hA, hB⟩ := C1_dense_ids
  constructor
  · cases hv : storeGet (applyOps emptyStore c1Ops) "s9" with
    | none => exact absurd hv (by decide)
    | some s =>
      rw [Option.map_some', decide_eq_true (hB c1Ops (by decide) "s9" s hv)]
  · rw [hA wSession { questions := some [{ wQuestion with id := 7 }, { wCodeQuestion with id := 0 }] }]
    rfl

/-- C9: `submit_code` performs no check of the question's type: for an
existing video-type question it succeeds, overwrites the record's answer
with the submitted code, and attaches a codeReview to the video question
(the record keeps `type = video`). -/
theorem C9_video_submit_code (st : Store) (sessionId : String) (questionId : Nat)
    (code : String) (language : Option String) (session : InterviewSession)
    (q : QuestionRecord) (out : AgentOutcome CodeReviewResponse)
    (hs : sessionId.isEmpty = false) (hq : (questionId == 0) = false)
    (hc : code.isEmpty = false)
    (hget : storeGet st sessionId = some session)
    (hfind : session.questions.find? (fun q' => q'.id == questionId) = some q)
    (hvideo : q.type = QType.video)
    (hout : out.isTransport = false) :
    (submitCodeHandler st sessionId questionId code language out).1.statusOf = none ∧
    ((storeGet ((submitCodeHandler st sessionId questionId code language
      out).1.storeOf) sessionId).bind
      (fun s' => s'.questions.find? (fun q' => q'.id == questionId))).map
      (fun q' => (q'.type, q'.answer, q'.codeReview.isSome))
      = some (QType.video, some code, true) := by
  have h1 : session.questions.any (fun q' => q'.id == questionId) = true :=
    any_of_find? hfind
  have hfind1 : (updateFirst (fun q' => q'.id == questionId)
      (fun q => { q with answer := some code, skipped := some false })
      session.questions).find? (fun q' => q'.id == questionId)
      = some { q with answer := some code, skipped := some false } := by
    rw [find?_updateFirst (fun q' : QuestionRecord => q'.id == questionId)
      (fun q => { q with answer := some code, skipped := some false })
      (fun _ => rfl) session.questions, hfind]
    rfl
  have h2 : (updateFirst (fun q' => q'.id == questionId)
      (fun q => { q with answer := some code, skipped := some false })
      session.questions).any (fun q' => q'.id == questionId) = true :=
    any_of_find? hfind1
  cases out with
  | transportError msg => simp [AgentOutcome.isTransport] at hout
  | badJSON =>
    cases hec : isEmptyCodeCheck code with
    | true =>
      simp only [submitCodeHandler, hs, hq, hc, Bool.or_self, Bool.false_eq_true,
        if_false, hget, hfind, recordAnswerCore, recordCodeReviewCore, hec,
        h1, h2, if_true, zeroCodeReview, HandlerOut.statusOf, HandlerOut.storeOf,
        storeGet_storeSet_self, Option.some_bind, Option.map_some']
      refine ⟨trivial, ?_⟩
      rw [find?_updateFirst (fun q' : QuestionRecord => q'.id == questionId)
        (fun q => { q with codeReview := some { score := 0, correctness := false, timeComplexity := "N/A", spaceComplexity := "N/A", strengths := [], issues := ["No code was submitted"], brief := "Candidate did not submit any code." } })
        (fun _ => rfl), hfind1]
      simp [hvideo]
    | false =>
      simp only [submitCodeHandler, hs, hq, hc, Bool.or_self, Bool.false_eq_true,
        if_false, hget, hfind, recordAnswerCore, recordCodeReviewCore, hec,
        h1, h2, if_true, codeReviewFallback, HandlerOut.statusOf, HandlerOut.storeOf,
        storeGet_storeSet_self, Option.some_bind, Option.map_some']
      refine ⟨trivial, ?_⟩
      rw [find?_updateFirst (fun q' : QuestionRecord => q'.id == questionId)
        (fun q => { q with codeReview := some { score := 0, correctness := false, timeComplexity := "N/A", spaceComplexity := "N/A", strengths := [], issues := ["AI code review unavailable"], brief := "Code review could not be completed." } })
        (fun _ => rfl), hfind1]
      simp [hvideo]
  | ok r =>
    cases hec : isEmptyCodeCheck code with
    | true =>
      simp only [submitCodeHandler, hs, hq, hc, Bool.or_self, Bool.false_eq_true,
        if_false, hget, hfind, recordAnswerCore, recordCodeReviewCore, hec,
        h1, h2, if_true, zeroCodeReview, HandlerOut.statusOf, HandlerOut.storeOf,
        storeGet_storeSet_self, Option.some_bind, Option.map_some']
      refine ⟨trivial, ?_⟩
      rw [find?_updateFirst (fun q' : QuestionRecord => q'.id == questionId)
        (fun q => { q with codeReview := some { score := 0, correctness := false, timeComplexity := "N/A", spaceComplexity := "N/A", strengths := [], issues := ["No code was submitted"], brief := "Candidate did not submit any code." } })
        (fun _ => rfl), hfind1]
      simp [hvideo]
    | false =>
      simp only [submitCodeHandler, hs, hq, hc, Bool.or_self, Bool.false_eq_true,
        if_false, hget, hfind, recordAnswerCore, recordCodeReviewCore, hec,
        h1, h2, if_true, HandlerOut.statusOf, HandlerOut.storeOf,
        storeGet_storeSet_self, Option.some_bind, Option.map_some']
      refine ⟨trivial, ?_⟩
      rw [find?_updateFirst (fun q' : QuestionRecord => q'.id == questionId)
        (fun q => { q with codeReview := some { score := r.score, correctness := r.correctness, timeComplexity := r.timeComplexity, spaceComplexity := r.spaceComplexity, strengths := r.strengths, issues := r.issues, brief := r.brief } })
        (fun _ => rfl), hfind1]
      simp [hvideo]

/-- Witness for C9: submitting code against the concrete video question. -/
theorem C9_video_submit_code_witness :
    (submitCodeHandler wStore "s1" 1 "const x = useMemo(() => 1, []);"
      (some "javascript") sampleReview).1.statusOf = none ∧
    ((storeGet ((submitCodeHandler wStore "s1" 1 "const x = useMemo(() => 1, []);"
      (some "javascript") sampleReview).1.storeOf) "s1").bind
      (fun s' => s'.questions.find? (fun q' => q'.id == 1))).map
      (fun q' => (q'.type, q'.answer, q'.codeReview.isSome))
      = some (QType.video, some "const x = useMemo(() => 1, []);", true) := by
  exact C9_video_submit_code wStore "s1" 1 "const x = useMemo(() => 1, []);"
    (some "javascript") wSession wQuestion sampleReview
    rfl rfl (by decide) rfl rfl rfl rfl

/-- C8: starting a default session and answering four times in a row with
non-empty transcripts and successful evaluations, the 4th `submit_answer`
call returns `isLastVideoQuestion = true` and a next question of type
`code`.  (Also true of the 3rd call: the count of completed video
questions reaches `totalVideoQuestions` there already.) -/
theorem C8_fourth_answer_is_code (t1 t2 t3 t4 : String) (e1 e2 e3 e4 : EvaluatorResponse)
    (h1 : t1.isEmpty = false) (h2 : t2.isEmpty = false)
    (h3 : t3.isEmpty = false) (h4 : t4.isEmpty = false) :
    (((answerHandler
      (((answerHandler
        (((answerHandler
          (((answerHandler
            ((startHandler emptyStore "sc" 0 "r" "c" (.ok (scVideoQ "q1"))).storeOf)
            "sc" 1 t1 false (.ok e1) (.ok (scVideoQ "q2")) 0).storeOf))
          "sc" 2 t2 false (.ok e2) (.ok (scVideoQ "q3")) 0).storeOf))
        "sc" 3 t3 false (.ok e3) (.ok scCodeQ) 0).storeOf))
      "sc" 4 t4 false (.ok e4) (.ok scCodeQ) 0).valueOf).map
      (fun r => (r.isLastVideoQuestion, r.nextQuestion.map (fun q => q.type))))
      = some (true, some QType.code) := by
  have hsc : "sc".isEmpty = false := rfl
  simp only [startHandler, answerHandler, answerNext, createSession, addQuestion,
    addQuestionCore, recordAnswerCore, recordEvaluationCore, storeGet_storeSet_self,
    HandlerOut.storeOf, HandlerOut.valueOf, QuestionRecord.toView, scVideoQ, scCodeQ,
    strTruthy, h1, h2, h3, h4, hsc, updateFirst, Option.getD_some, Option.map_some',
    orStr]
  simp [startHandler, answerHandler, answerNext, createSession, addQuestion,
    addQuestionCore, recordAnswerCore, recordEvaluationCore, storeGet_storeSet_self,
    HandlerOut.storeOf, HandlerOut.valueOf, QuestionRecord.toView, scVideoQ, scCodeQ,
    strTruthy, h1, h2, h3, h4, hsc, updateFirst, orStr]

/-- Witness for C8: concrete transcripts and evaluations. -/
theorem C8_fourth_answer_is_code_witness :
    (((answerHandler
      (((answerHandler
        (((answerHandler
          (((answerHandler
            ((startHandler emptyStore "sc" 0 "r" "c" (.ok (scVideoQ "q1"))).storeOf)
            "sc" 1 "answer one" false (.ok sampleEval) (.ok (scVideoQ "q2")) 0).storeOf))
          "sc" 2 "answer two" false (.ok sampleEval) (.ok (scVideoQ "q3")) 0).storeOf))
        "sc" 3 "answer three" false (.ok sampleEval) (.ok scCodeQ) 0).storeOf))
      "sc" 4 "answer four" false (.ok sampleEval) (.ok scCodeQ) 0).valueOf).map
      (fun r => (r.isLastVideoQuestion, r.nextQuestion.map (fun q => q.type))))
      = some (true, some QType.code) :=
  C8_fourth_answer_is_code "answer one" "answer two" "answer three" "answer four"
    sampleEval sampleEval sampleEval sampleEval rfl rfl rfl rfl

/-! ## JSON round-trip and recovery-pipeline lemmas (C7, C10) -/

theorem needFuel_pos : ∀ v : Json, 1 ≤ needFuel v := by
  intro v; cases v <;> simp [needFuel]

theorem hexVal_hexDigit (d : Nat) (h : d < 16) : hexVal (hexDigit d) = some d := by
  interval_cases d <;> decide

theorem parseStringBody_escape :
    ∀ (s : List Char) (fuel : Nat) (rest : List Char),
      s.length + 1 ≤ fuel →
      parseStringBody fuel (escapeList s ++ '"' :: rest) = .ok (s, rest) := by
  intro s
  induction s with
  | nil =>
    intro fuel rest hf
    match fuel, hf with
    | f + 1, _ => rfl
  | cons c s ih =>
    intro fuel rest hf
    match fuel, hf with
    | f + 1, hf =>
      have hfs : s.length + 1 ≤ f := by simp at hf; omega
      have ihs := ih f rest hfs
      show parseStringBody (f + 1) (escapeList (c :: s) ++ '"' :: rest) = _
      rw [show escapeList (c :: s) = escapeChar c ++ escapeList s from
        List.flatMap_cons ..]
      by_cases h1 : c = '"'
      · subst h1
        rw [show escapeChar '"' = ['\\', '"'] from rfl]
        rw [show parseStringBody (f + 1)
              (['\\', '"'] ++ escapeList s ++ '"' :: rest) =
            match parseStringBody f (escapeList s ++ '"' :: rest) with
            | .ok (b, r) => .ok ('"' :: b, r)
            | .error msg => .error msg from rfl, ihs]
      by_cases h2 : c = '\\'
      · subst h2
        rw [show escapeChar '\\' = ['\\', '\\'] from rfl]
        rw [show parseStringBody (f + 1)
              (['\\', '\\'] ++ escapeList s ++ '"' :: rest) =
            match parseStringBody f (escapeList s ++ '"' :: rest) with
            | .ok (b, r) => .ok ('\\' :: b, r)
            | .error msg => .error msg from rfl, ihs]
      by_cases h3 : c = Char.ofNat 8
      · subst h3
        rw [show escapeChar (Char.ofNat 8) = ['\\', 'b'] from rfl]
        rw [show parseStringBody (f + 1)
              (['\\', 'b'] ++ escapeList s ++ '"' :: rest) =
            match parseStringBody f (escapeList s ++ '"' :: rest) with
            | .ok (b, r) => .ok (Char.ofNat 8 :: b, r)
            | .error msg => .error msg from rfl, ihs]
      by_cases h4 : c = '\t'
      · subst h4
        rw [show escapeChar '\t' = ['\\', 't'] from rfl]
        rw [show parseStringBody (f + 1)
              (['\\', 't'] ++ escapeList s ++ '"' :: rest) =
            match parseStringBody f (escapeList s ++ '"' :: rest) with
            | .ok (b, r) => .ok ('\t' :: b, r)
            | .error msg => .error msg from rfl, ihs]
      by_cases h5 : c = '\n'
      · subst h5
        rw [show escapeChar '\n' = ['\\', 'n'] from rfl]
        rw [show parseStringBody (f + 1)
              (['\\', 'n'] ++ escapeList s ++ '"' :: rest) =
            match parseStringBody f (escapeList s ++ '"' :: rest) with
            | .ok (b, r) => .ok ('\n' :: b, r)
            | .error msg => .error msg from rfl, ihs]
      by_cases h6 : c = Char.ofNat 12
      · subst h6
        rw [show escapeChar (Char.ofNat 12) = ['\\', 'f'] from rfl]
        rw [show parseStringBody (f + 1)
              (['\\', 'f'] ++ escapeList s ++ '"' :: rest) =
            match parseStringBody f (escapeList s ++ '"' :: rest) with
            | .ok (b, r) => .ok (Char.ofNat 12 :: b, r)
            | .error msg => .error msg from rfl, ihs]
      by_cases h7 : c = '\r'
      · subst h7
        rw [show escapeChar '\r' = ['\\', 'r'] from rfl]
        rw [show parseStringBody (f + 1)
              (['\\', 'r'] ++ escapeList s ++ '"' :: rest) =
            match parseStringBody f (escapeList s ++ '"' :: rest) with
            | .ok (b, r) => .ok ('\r' :: b, r)
            | .error msg => .error msg from rfl, ihs]
      by_cases h8 : c.toNat < 32
      · rw [show escapeChar c =
            ['\\', 'u', '0', '0', hexDigit (c.toNat / 16), hexDigit (c.toNat % 16)]
            from by simp only [escapeChar, if_neg h1, if_neg h2, if_neg h3,
              if_neg h4, if_neg h5, if_neg h6, if_neg h7, if_pos h8]]
        rw [show parseStringBody (f + 1)
              (['\\', 'u', '0', '0', hexDigit (c.toNat / 16),
                hexDigit (c.toNat % 16)] ++ escapeList s ++ '"' :: rest) =
            (match hexVal '0', hexVal '0', hexVal (hexDigit (c.toNat / 16)),
                hexVal (hexDigit (c.toNat % 16)) with
             | some d1, some d2, some d3, some d4 =>
               if d1 * 4096 + d2 * 256 + d3 * 16 + d4 < 0xD800 then
                 match parseStringBody f (escapeList s ++ '"' :: rest) with
                 | .ok (b, r) =>
                   .ok (Char.ofNat (d1 * 4096 + d2 * 256 + d3 * 16 + d4) :: b, r)
                 | .error msg => .error msg
               else .error "Unsupported unicode escape in JSON"
             | _, _, _, _ => .error "Bad unicode escape in JSON") from rfl]
        simp only [show hexVal '0' = some 0 from rfl,
          hexVal_hexDigit (c.toNat / 16) (by omega),
          hexVal_hexDigit (c.toNat % 16) (by omega)]
        rw [show (0 : Nat) * 4096 + 0 * 256 + c.toNat / 16 * 16 + c.toNat % 16 =
              c.toNat from by omega]
        rw [if_pos (show c.toNat < 0xD800 from by omega), Char.ofNat_toNat,
          ihs]
      · rw [show escapeChar c = [c] from by
          simp only [escapeChar, if_neg h1, if_neg h2, if_neg h3,
            if_neg h4, if_neg h5, if_neg h6, if_neg h7, if_neg h8]]
        rw [show ([c] : List Char) ++ escapeList s ++ '"' :: rest =
            c :: (escapeList s ++ '"' :: rest) from rfl]
        simp only [parseStringBody, if_neg h1, if_neg h2, ihs]

theorem escapeChar_len (c : Char) : 1 ≤ (escapeChar c).length := by
  unfold escapeChar; split_ifs <;> simp

theorem escapeList_len (l : List Char) : l.length ≤ (escapeList l).length := by
  induction l with
  | nil => simp [escapeList]
  | cons c l ih =>
    rw [show escapeList (c :: l) = escapeChar c ++ escapeList l from
      List.flatMap_cons ..]
    simp only [List.length_append, List.length_cons]
    have := escapeChar_len c
    omega

theorem digit_char_facts : ∀ d : Nat, d < 10 →
    isDigitC (Char.ofNat (48 + d)) = true ∧
      digitVal (Char.ofNat (48 + d)) = d := by
  decide

theorem natToChars_ne_nil (n : Nat) : natToChars n ≠ [] := by
  rw [natToChars]; split <;> simp

theorem natToChars_digits : ∀ n : Nat, ∀ c ∈ natToChars n, isDigitC c = true := by
  intro n
  induction n using Nat.strong_induction_on with
  | _ n ih =>
    rw [natToChars]
    split
    · rename_i h
      intro c hc
      simp only [List.mem_singleton] at hc
      subst hc
      exact (digit_char_facts n h).1
    · rename_i h
      intro c hc
      simp only [List.mem_append, List.mem_singleton] at hc
      rcases hc with hc | hc
      · exact ih (n / 10) (Nat.div_lt_self (by omega) (by omega)) c hc
      · subst hc
        exact (digit_char_facts (n % 10) (Nat.mod_lt _ (by omega))).1

theorem natToChars_head_ne_zero : ∀ n : Nat, 1 ≤ n →
    ∀ c, (natToChars n).head? = some c → ¬(c = '0') := by
  intro n
  induction n using Nat.strong_induction_on with
  | _ n ih =>
    intro hn c hc
    rw [natToChars] at hc
    split at hc
    · rename_i h
      simp only [List.head?_cons, Option.some.injEq] at hc
      subst hc
      interval_cases n <;> decide
    · rename_i h
      rcases hlist : natToChars (n / 10) with _ | ⟨d, ds⟩
      · exact absurd hlist (natToChars_ne_nil (n / 10))
      · rw [hlist, List.cons_append, List.head?_cons,
          Option.some.injEq] at hc
        intro hzero
        exact ih (n / 10) (Nat.div_lt_self (by omega) (by omega)) (by omega) d
          (by rw [hlist]; rfl) (hc.trans hzero)

theorem natToChars_foldl : ∀ n a : Nat,
    List.foldl (fun a c => a * 10 + digitVal c) a (natToChars n) =
      a * 10 ^ (natToChars n).length + n := by
  intro n
  induction n using Nat.strong_induction_on with
  | _ n ih =>
    intro a
    rw [natToChars]
    split
    · rename_i h
      simp only [List.foldl_cons, List.foldl_nil, List.length_singleton,
        pow_one, (digit_char_facts n h).2]
    · rename_i h
      rw [List.foldl_append,
        ih (n / 10) (Nat.div_lt_self (by omega) (by omega)) a]
      simp only [List.foldl_cons, List.foldl_nil, List.length_append,
        List.length_singleton, (digit_char_facts (n % 10) (Nat.mod_lt _ (by omega))).2]
      have hdm : 10 * (n / 10) + n % 10 = n := Nat.div_add_mod n 10
      calc (a * 10 ^ (natToChars (n / 10)).length + n / 10) * 10 + n % 10
          = a * (10 ^ (natToChars (n / 10)).length * 10) +
              (10 * (n / 10) + n % 10) := by ring
        _ = a * 10 ^ ((natToChars (n / 10)).length + 1) + n := by
            rw [pow_succ, hdm]

theorem numSafe_head (c : Char) (l : List Char) (h : numSafe (c :: l) = true) :
    isDigitC c = false ∧ ¬(c = '.') ∧ ¬(c = 'e') ∧ ¬(c = 'E') := by
  simp only [numSafe, Bool.not_eq_eq_eq_not, Bool.not_true, Bool.or_eq_false_iff,
    decide_eq_false_iff_not] at h
  exact ⟨h.1.1.1, h.1.1.2, h.1.2, h.2⟩

theorem takeWhile_append_digits (l1 l2 : List Char)
    (h1 : ∀ c ∈ l1, isDigitC c = true) (h2 : numSafe l2 = true) :
    (l1 ++ l2).takeWhile isDigitC = l1 ∧ (l1 ++ l2).dropWhile isDigitC = l2 := by
  induction l1 with
  | nil =>
    simp only [List.nil_append]
    cases l2 with
    | nil => simp
    | cons c l =>
      have hc := (numSafe_head c l h2).1
      simp [List.takeWhile_cons, List.dropWhile_cons, hc]
  | cons a l1 ih =>
    have ha := h1 a (by simp)
    have := ih (fun c hc => h1 c (by simp [hc]))
    simp only [List.cons_append, List.takeWhile_cons, List.dropWhile_cons, ha,
      if_true]
    simp [this.1, this.2]

theorem parseNatToken_natToChars (m : Nat) (rest : List Char)
    (hrest : numSafe rest = true) :
    parseNatToken (natToChars m ++ rest) = .ok (m, rest) := by
  obtain ⟨htake, hdrop⟩ :=
    takeWhile_append_digits (natToChars m) rest (natToChars_digits m) hrest
  unfold parseNatToken
  simp only [htake, hdrop]
  rw [if_neg (by simp [List.isEmpty_iff, natToChars_ne_nil])]
  have hhead : ¬((natToChars m).head? = some '0' ∧ 1 < (natToChars m).length) := by
    rcases Nat.eq_zero_or_pos m with hm | hm
    · subst hm
      rw [show natToChars 0 = ['0'] from by rw [natToChars]; rfl]
      simp
    · rintro ⟨hz, -⟩
      exact natToChars_head_ne_zero m hm '0' hz rfl
  rw [if_neg hhead]
  have hfold : List.foldl (fun a c => a * 10 + digitVal c) 0 (natToChars m) = m := by
    rw [natToChars_foldl]; simp
  cases rest with
  | nil => rw [hfold]
  | cons c l =>
    obtain ⟨-, hd, he, hE⟩ := numSafe_head c l hrest
    simp [hd, he, hE, hfold]

theorem parseNumberToken_intToChars (n : Int) (rest : List Char)
    (hrest : numSafe rest = true) :
    parseNumberToken (intToChars n ++ rest) = .ok (.num n, rest) := by
  by_cases hn : n < 0
  · rw [show intToChars n = '-' :: natToChars n.natAbs from by
      unfold intToChars; rw [if_pos hn]]
    rw [List.cons_append]
    rw [show parseNumberToken ('-' :: (natToChars n.natAbs ++ rest)) =
        (match parseNatToken (natToChars n.natAbs ++ rest) with
         | .ok (k, r) => .ok (.num (-(k : Int)), r)
         | .error msg => .error msg) from rfl]
    rw [parseNatToken_natToChars n.natAbs rest hrest]
    show Except.ok (Json.num (-((n.natAbs : Nat) : Int)), rest) =
      Except.ok (Json.num n, rest)
    rw [show (-((n.natAbs : Nat) : Int)) = n from by omega]
  · rw [show intToChars n = natToChars n.natAbs from by
      unfold intToChars; rw [if_neg hn]]
    rcases hlist : natToChars n.natAbs with _ | ⟨d, ds⟩
    · exact absurd hlist (natToChars_ne_nil n.natAbs)
    · have hd : isDigitC d = true :=
        natToChars_digits n.natAbs d (by rw [hlist]; simp)
      have hdne : ¬(d = '-') := by
        intro h; subst h; exact absurd hd (by decide)
      rw [List.cons_append]
      rw [show parseNumberToken (d :: (ds ++ rest)) =
          (if d = '-' then
            match parseNatToken (ds ++ rest) with
            | .ok (k, r) => .ok (.num (-(k : Int)), r)
            | .error msg => .error msg
          else
            match parseNatToken (d :: (ds ++ rest)) with
            | .ok (k, r) => .ok (.num ((k : Nat) : Int), r)
            | .error msg => .error msg) from rfl]
      rw [if_neg hdne, ← List.cons_append, ← hlist,
        parseNatToken_natToChars n.natAbs rest hrest]
      show Except.ok (Json.num (((n.natAbs : Nat) : Int)), rest) =
        Except.ok (Json.num n, rest)
      rw [show (((n.natAbs : Nat) : Int)) = n from by omega]

theorem isDigit_facts (c : Char) (h : isDigitC c = true) :
    ¬(c = lbraceC) ∧ ¬(c = '[') ∧ ¬(c = '"') ∧ jsonWs c = false ∧
      ¬(c = ']') ∧ ¬(c = rbraceC) ∧ ¬(c = ',') ∧ ¬(c = '-') := by
  refine ⟨?_, ?_, ?_, ?_, ?_, ?_, ?_, ?_⟩
  · intro hh; subst hh; exact absurd h (by decide)
  · intro hh; subst hh; exact absurd h (by decide)
  · intro hh; subst hh; exact absurd h (by decide)
  · by_cases h1 : jsonWs c = true
    · simp only [jsonWs, Bool.or_eq_true, beq_iff_eq] at h1
      rcases h1 with ((h1 | h1) | h1) | h1 <;>
        subst h1 <;> exact absurd h (by decide)
    · exact Bool.eq_false_iff.mpr h1
  · intro hh; subst hh; exact absurd h (by decide)
  · intro hh; subst hh; exact absurd h (by decide)
  · intro hh; subst hh; exact absurd h (by decide)
  · intro hh; subst hh; exact absurd h (by decide)

theorem dropWhile_cons_not (p : Char → Bool) (c : Char) (l : List Char)
    (h : p c = false) : List.dropWhile p (c :: l) = c :: l := by
  simp [List.dropWhile_cons, h]

theorem stringifyL_head : ∀ v : Json, ∃ c l, stringifyL v = c :: l ∧
    jsonWs c = false ∧ ¬(c = ']') ∧ ¬(c = rbraceC) ∧ ¬(c = ',') := by
  intro v
  cases v with
  | null => exact ⟨'n', _, rfl, by decide, by decide, by decide, by decide⟩
  | bool b =>
    cases b
    · exact ⟨'f', _, rfl, by decide, by decide, by decide, by decide⟩
    · exact ⟨'t', _, rfl, by decide, by decide, by decide, by decide⟩
  | num n =>
    by_cases hn : n < 0
    · refine ⟨'-', natToChars n.natAbs, ?_, by decide, by decide, by decide,
        by decide⟩
      show intToChars n = _
      unfold intToChars; rw [if_pos hn]
    · rcases hlist : natToChars n.natAbs with _ | ⟨d, ds⟩
      · exact absurd hlist (natToChars_ne_nil n.natAbs)
      · have hd : isDigitC d = true :=
          natToChars_digits n.natAbs d (by rw [hlist]; simp)
        obtain ⟨-, -, -, hws, hne1, hne2, hne3, -⟩ := isDigit_facts d hd
        refine ⟨d, ds, ?_, hws, hne1, hne2, hne3⟩
        show intToChars n = _
        unfold intToChars; rw [if_neg hn, hlist]
  | str s => exact ⟨'"', _, rfl, by decide, by decide, by decide, by decide⟩
  | arr xs => exact ⟨'[', _, rfl, by decide, by decide, by decide, by decide⟩
  | obj fs =>
    exact ⟨lbraceC, _, rfl, by decide, by decide, by decide, by decide⟩

theorem parseValue_cons (f : Nat) (c : Char) (l : List Char)
    (hws : jsonWs c = false) :
    parseValue (f + 1) (c :: l) =
      if c = lbraceC then
        match List.dropWhile jsonWs l with
        | [] => .error "Unexpected end of JSON input"
        | d :: rest'' =>
          if d = rbraceC then .ok (.obj [], rest'')
          else
            match parseMembers f (List.dropWhile jsonWs l) with
            | .ok (kvs, r) => .ok (.obj kvs, r)
            | .error msg => .error msg
      else if c = '[' then
        match List.dropWhile jsonWs l with
        | [] => .error "Unexpected end of JSON input"
        | d :: rest'' =>
          if d = ']' then .ok (.arr [], rest'')
          else
            match parseElements f (List.dropWhile jsonWs l) with
            | .ok (vs, r) => .ok (.arr vs, r)
            | .error msg => .error msg
      else if c = '"' then
        match parseStringBody (l.length + 1) l with
        | .ok (b, r) => .ok (.str (String.mk b), r)
        | .error msg => .error msg
      else if c = '-' || isDigitC c then parseNumberToken (c :: l)
      else if c = 't' then
        if l.take 3 = ['r', 'u', 'e'] then .ok (.bool true, l.drop 3)
        else .error "Unexpected token in JSON"
      else if c = 'f' then
        if l.take 4 = ['a', 'l', 's', 'e'] then .ok (.bool false, l.drop 4)
        else .error "Unexpected token in JSON"
      else if c = 'n' then
        if l.take 3 = ['u', 'l', 'l'] then .ok (.null, l.drop 3)
        else .error "Unexpected token in JSON"
      else .error "Unexpected token in JSON" := by
  conv_lhs => rw [parseValue]
  rw [dropWhile_cons_not jsonWs c l hws]

theorem parseElements_succ (f : Nat) (cs : List Char) :
    parseElements (f + 1) cs =
      match parseValue f cs with
      | .error msg => .error msg
      | .ok (v, r) =>
        match List.dropWhile jsonWs r with
        | [] => .error "Unexpected end of JSON input"
        | d :: r' =>
          if d = ',' then
            match parseElements f r' with
            | .ok (vs, rr) => .ok (v :: vs, rr)
            | .error msg => .error msg
          else if d = ']' then .ok ([v], r')
          else .error "Expected comma or bracket in JSON array" := by
  rw [parseElements]

theorem parseMembers_cons (f : Nat) (c : Char) (l : List Char)
    (hws : jsonWs c = false) :
    parseMembers (f + 1) (c :: l) =
      if c = '"' then
        match parseStringBody (l.length + 1) l with
        | .error msg => .error msg
        | .ok (k, r) =>
          match List.dropWhile jsonWs r with
          | [] => .error "Unexpected end of JSON input"
          | d :: r' =>
            if d = ':' then
              match parseValue f r' with
              | .error msg => .error msg
              | .ok (v, rr) =>
                match List.dropWhile jsonWs rr with
                | [] => .error "Unexpected end of JSON input"
                | e :: rr' =>
                  if e = ',' then
                    match parseMembers f rr' with
                    | .ok (kvs, rrr) => .ok ((String.mk k, v) :: kvs, rrr)
                    | .error msg => .error msg
                  else if e = rbraceC then .ok ([(String.mk k, v)], rr')
                  else .error "Expected comma or brace in JSON object"
            else .error "Expected colon in JSON object"
      else .error "Expected string key in JSON object" := by
  conv_lhs => rw [parseMembers]
  rw [dropWhile_cons_not jsonWs c l hws]

theorem parseValue_bracket (f : Nat) (c : Char) (t : List Char)
    (hws : jsonWs c = false) (hne : ¬(c = ']')) :
    parseValue (f + 1) ('[' :: (c :: t)) =
      match parseElements f (c :: t) with
      | .ok (vs, r) => .ok (.arr vs, r)
      | .error msg => .error msg := by
  rw [parseValue_cons f '[' (c :: t) (by decide), if_neg (by decide),
    if_pos rfl, dropWhile_cons_not jsonWs c t hws]
  rw [show (match c :: t with
      | [] => (Except.error "Unexpected end of JSON input" :
          Except String (Json × List Char))
      | d :: rest'' =>
        if d = ']' then .ok (.arr [], rest'')
        else
          match parseElements f (c :: t) with
          | .ok (vs, r) => .ok (.arr vs, r)
          | .error msg => .error msg) =
    (if c = ']' then (.ok (.arr [], t) : Except String (Json × List Char))
     else
       match parseElements f (c :: t) with
       | .ok (vs, r) => .ok (.arr vs, r)
       | .error msg => .error msg) from rfl, if_neg hne]

theorem parseValue_brace (f : Nat) (c : Char) (t : List Char)
    (hws : jsonWs c = false) (hne : ¬(c = rbraceC)) :
    parseValue (f + 1) (lbraceC :: (c :: t)) =
      match parseMembers f (c :: t) with
      | .ok (kvs, r) => .ok (.obj kvs, r)
      | .error msg => .error msg := by
  rw [parseValue_cons f lbraceC (c :: t) (by decide), if_pos rfl,
    dropWhile_cons_not jsonWs c t hws]
  rw [show (match c :: t with
      | [] => (Except.error "Unexpected end of JSON input" :
          Except String (Json × List Char))
      | d :: rest'' =>
        if d = rbraceC then .ok (.obj [], rest'')
        else
          match parseMembers f (c :: t) with
          | .ok (kvs, r) => .ok (.obj kvs, r)
          | .error msg => .error msg) =
    (if c = rbraceC then (.ok (.obj [], t) : Except String (Json × List Char))
     else
       match parseMembers f (c :: t) with
       | .ok (kvs, r) => .ok (.obj kvs, r)
       | .error msg => .error msg) from rfl, if_neg hne]

theorem parse_stringify_master : ∀ fuel : Nat,
    (∀ (v : Json) (rest : List Char), needFuel v ≤ fuel → numSafe rest = true →
      parseValue fuel (stringifyL v ++ rest) = .ok (v, rest)) ∧
    (∀ (x : Json) (xs : List Json) (rest : List Char),
      needList (x :: xs) ≤ fuel →
      parseElements fuel (stringifyElems (x :: xs) ++ ']' :: rest) =
        .ok (x :: xs, rest)) ∧
    (∀ (k : String) (v : Json) (fs : List (String × Json)) (rest : List Char),
      needFields ((k, v) :: fs) ≤ fuel →
      parseMembers fuel (stringifyFields ((k, v) :: fs) ++ rbraceC :: rest) =
        .ok ((k, v) :: fs, rest)) := by
  intro fuel
  induction fuel with
  | zero =>
    refine ⟨?_, ?_, ?_⟩
    · intro v rest hf _
      have := needFuel_pos v
      omega
    · intro x xs rest hf
      simp [needList] at hf
    · intro k v fs rest hf
      simp [needFields] at hf
  | succ f ih =>
    obtain ⟨ihV, ihE, ihM⟩ := ih
    refine ⟨?_, ?_, ?_⟩
    · intro v rest hf hrest
      cases v with
      | null => rfl
      | bool b => cases b <;> rfl
      | num n =>
        by_cases hn : n < 0
        · have hneg : intToChars n = '-' :: natToChars n.natAbs := by
            unfold intToChars; rw [if_pos hn]
          rw [show stringifyL (.num n) = intToChars n from rfl, hneg,
            List.cons_append,
            parseValue_cons f '-' (natToChars n.natAbs ++ rest) (by decide),
            if_neg (by decide), if_neg (by decide), if_neg (by decide),
            if_pos (show ('-' = '-' || isDigitC '-') = true from by decide)]
          rw [← List.cons_append, ← hneg]
          exact parseNumberToken_intToChars n rest hrest
        · have hpos : intToChars n = natToChars n.natAbs := by
            unfold intToChars; rw [if_neg hn]
          rcases hlist : natToChars n.natAbs with _ | ⟨d, ds⟩
          · exact absurd hlist (natToChars_ne_nil n.natAbs)
          · have hd : isDigitC d = true :=
              natToChars_digits n.natAbs d (by rw [hlist]; simp)
            obtain ⟨h1, h2, h3, hws, -, -, -, -⟩ := isDigit_facts d hd
            rw [show stringifyL (.num n) = intToChars n from rfl, hpos, hlist,
              List.cons_append, parseValue_cons f d (ds ++ rest) hws,
              if_neg h1, if_neg h2, if_neg h3,
              if_pos (show (d = '-' || isDigitC d) = true from by
                rw [hd]; simp)]
            rw [← List.cons_append, ← hlist, ← hpos]
            exact parseNumberToken_intToChars n rest hrest
      | str s =>
        rw [show stringifyL (.str s) ++ rest =
            '"' :: (escapeList s.data ++ '"' :: rest) from by
          simp [stringifyL]]
        rw [parseValue_cons f '"' _ (by decide), if_neg (by decide),
          if_neg (by decide), if_pos rfl]
        rw [parseStringBody_escape s.data _ rest (by
          have := escapeList_len s.data
          simp only [List.length_append, List.length_cons]
          omega)]
      | arr xs =>
        rcases xs with _ | ⟨x, xs⟩
        · rfl
        · have hfxs : needList (x :: xs) ≤ f := by
            simp only [needFuel] at hf; omega
          rw [show stringifyL (.arr (x :: xs)) ++ rest =
              '[' :: (stringifyElems (x :: xs) ++ ']' :: rest) from by
            simp [stringifyL]]
          obtain ⟨c, l, hcl, hws, hne1, -, -⟩ := stringifyL_head x
          have hsplit : stringifyElems (x :: xs) ++ ']' :: rest =
              c :: (l ++ ((if xs.isEmpty then ([] : List Char) else [',']) ++
                (stringifyElems xs ++ ']' :: rest))) := by
            conv_lhs => rw [stringifyElems, hcl]
            simp [List.append_assoc]
          rw [hsplit, parseValue_bracket f c _ hws hne1, ← hsplit,
            ihE x xs rest hfxs]
      | obj fs =>
        rcases fs with _ | ⟨⟨k, v⟩, fs⟩
        · rfl
        · have hff : needFields ((k, v) :: fs) ≤ f := by
            simp only [needFuel] at hf; omega
          rw [show stringifyL (.obj ((k, v) :: fs)) ++ rest =
              lbraceC :: (stringifyFields ((k, v) :: fs) ++ rbraceC :: rest)
              from by simp [stringifyL]]
          have hsplit : stringifyFields ((k, v) :: fs) ++ rbraceC :: rest =
              '"' :: ((escapeList k.data ++ '"' :: ':' :: stringifyL v) ++
                ((if fs.isEmpty then ([] : List Char) else [',']) ++
                  (stringifyFields fs ++ rbraceC :: rest))) := by
            conv_lhs => rw [stringifyFields]
            simp [List.append_assoc]
          rw [hsplit, parseValue_brace f '"' _ (by decide) (by decide),
            ← hsplit, ihM k v fs rest hff]
    · intro x xs rest hf
      rw [parseElements_succ]
      rcases xs with _ | ⟨y, ys⟩
      · have hfx : needFuel x ≤ f := by simp [needList] at hf; omega
        rw [show stringifyElems [x] ++ ']' :: rest =
            stringifyL x ++ (']' :: rest) from by simp [stringifyElems]]
        rw [ihV x (']' :: rest) hfx rfl]
        rfl
      · have hfx : needFuel x ≤ f := by simp [needList] at hf; omega
        have hfr : needList (y :: ys) ≤ f := by
          simp [needList] at hf ⊢; omega
        rw [show stringifyElems (x :: y :: ys) ++ ']' :: rest =
            stringifyL x ++
              (',' :: (stringifyElems (y :: ys) ++ ']' :: rest)) from by
          simp [stringifyElems]]
        rw [ihV x (',' :: (stringifyElems (y :: ys) ++ ']' :: rest)) hfx rfl]
        show (match parseElements f (stringifyElems (y :: ys) ++ ']' :: rest)
            with
          | .ok (vs, rr) => (.ok (x :: vs, rr) :
              Except String (List Json × List Char))
          | .error msg => .error msg) = .ok (x :: y :: ys, rest)
        rw [ihE y ys rest hfr]
    · intro k v fs rest hf
      have hfv : needFuel v ≤ f := by simp [needFields] at hf; omega
      rcases fs with _ | ⟨⟨k2, v2⟩, fs⟩
      · rw [show stringifyFields [(k, v)] ++ rbraceC :: rest =
            '"' :: (escapeList k.data ++
              '"' :: (':' :: (stringifyL v ++ rbraceC :: rest))) from by
          simp [stringifyFields]]
        rw [parseMembers_cons f '"' _ (by decide), if_pos rfl]
        rw [parseStringBody_escape k.data _
          (':' :: (stringifyL v ++ rbraceC :: rest)) (by
            have := escapeList_len k.data
            simp only [List.length_append, List.length_cons]
            omega)]
        show (match parseValue f (stringifyL v ++ rbraceC :: rest) with
          | .error msg => (.error msg :
              Except String (List (String × Json) × List Char))
          | .ok (w, rr) =>
            match List.dropWhile jsonWs rr with
            | [] => .error "Unexpected end of JSON input"
            | e :: rr' =>
              if e = ',' then
                match parseMembers f rr' with
                | .ok (kvs, rrr) => .ok ((String.mk k.data, w) :: kvs, rrr)
                | .error msg => .error msg
              else if e = rbraceC then .ok ([(String.mk k.data, w)], rr')
              else .error "Expected comma or brace in JSON object") =
          .ok ([(k, v)], rest)
        rw [ihV v (rbraceC :: rest) hfv rfl]
        rfl
      · have hfr : needFields ((k2, v2) :: fs) ≤ f := by
          simp [needFields] at hf ⊢; omega
        rw [show stringifyFields ((k, v) :: (k2, v2) :: fs) ++ rbraceC :: rest =
            '"' :: (escapeList k.data ++
              '"' :: (':' :: (stringifyL v ++
                (',' :: (stringifyFields ((k2, v2) :: fs) ++
                  rbraceC :: rest))))) from by
          simp [stringifyFields]]
        rw [parseMembers_cons f '"' _ (by decide), if_pos rfl]
        rw [parseStringBody_escape k.data _
          (':' :: (stringifyL v ++
            ',' :: (stringifyFields ((k2, v2) :: fs) ++ rbraceC :: rest))) (by
            have := escapeList_len k.data
            simp only [List.length_append, List.length_cons]
            omega)]
        show (match parseValue f (stringifyL v ++
              ',' :: (stringifyFields ((k2, v2) :: fs) ++ rbraceC :: rest)) with
          | .error msg => (.error msg :
              Except String (List (String × Json) × List Char))
          | .ok (w, rr) =>
            match List.dropWhile jsonWs rr with
            | [] => .error "Unexpected end of JSON input"
            | e :: rr' =>
              if e = ',' then
                match parseMembers f rr' with
                | .ok (kvs, rrr) => .ok ((String.mk k.data, w) :: kvs, rrr)
                | .error msg => .error msg
              else if e = rbraceC then .ok ([(String.mk k.data, w)], rr')
              else .error "Expected comma or brace in JSON object") =
          .ok ((k, v) :: (k2, v2) :: fs, rest)
        rw [ihV v (',' :: (stringifyFields ((k2, v2) :: fs) ++
          rbraceC :: rest)) hfv rfl]
        show (match parseMembers f
              (stringifyFields ((k2, v2) :: fs) ++ rbraceC :: rest) with
          | .ok (kvs, rrr) => (.ok ((String.mk k.data, v) :: kvs, rrr) :
              Except String (List (String × Json) × List Char))
          | .error msg => .error msg) =
          .ok ((k, v) :: (k2, v2) :: fs, rest)
        rw [ihM k2 v2 fs rest hfr]

theorem stringifyL_ne_nil (v : Json) : stringifyL v ≠ [] := by
  obtain ⟨c, l, hcl, -⟩ := stringifyL_head v
  rw [hcl]
  simp

mutual

theorem needFuel_le : ∀ v : Json, needFuel v ≤ (stringifyL v).length + 1
  | .null => by simp [needFuel, stringifyL]
  | .bool b => by cases b <;> simp [needFuel, stringifyL]
  | .num n => by simp [needFuel]
  | .str s => by simp [needFuel]
  | .arr xs => by
    have h := needList_le xs
    simp only [needFuel, stringifyL, List.length_cons, List.length_append]
    omega
  | .obj fs => by
    have h := needFields_le fs
    simp only [needFuel, stringifyL, List.length_cons, List.length_append]
    omega

theorem needList_le : ∀ xs : List Json, needList xs ≤ (stringifyElems xs).length + 2
  | [] => by simp [needList, stringifyElems]
  | x :: xs => by
    have h1 := needFuel_le x
    have h2 := needList_le xs
    have h3 : stringifyL x ≠ [] := stringifyL_ne_nil x
    have h4 : 1 ≤ (stringifyL x).length := by
      cases hl : stringifyL x
      · exact absurd hl h3
      · simp
    simp only [needList, stringifyElems, List.length_append]
    rcases xs with _ | ⟨y, ys⟩ <;> simp_all <;> omega

theorem needFields_le :
    ∀ fs : List (String × Json), needFields fs ≤ (stringifyFields fs).length + 2
  | [] => by simp [needFields, stringifyFields]
  | (k, v) :: fs => by
    have h1 := needFuel_le v
    have h2 := needFields_le fs
    simp only [needFields, stringifyFields, List.length_append,
      List.length_cons]
    rcases fs with _ | ⟨⟨k2, v2⟩, fs⟩ <;> simp_all <;> omega

end

theorem jsonParse_stringify (v : Json) : jsonParseList (stringifyL v) = .ok v := by
  unfold jsonParseList
  have h := (parse_stringify_master ((stringifyL v).length + 1)).1 v []
    (by have := needFuel_le v; omega) rfl
  rw [List.append_nil] at h
  rw [h]
  rfl

theorem jsTrimList_noop (c d : Char) (mid : List Char)
    (hc : jsWhitespace c = false) (hd : jsWhitespace d = false) :
    jsTrimList (c :: (mid ++ [d])) = c :: (mid ++ [d]) := by
  unfold jsTrimList
  rw [dropWhile_cons_not jsWhitespace c _ hc]
  rw [show (c :: (mid ++ [d])).reverse = d :: (mid.reverse ++ [c]) from by
    simp]
  rw [dropWhile_cons_not jsWhitespace d _ hd]
  simp

theorem cleanAgentText_plain (c d : Char) (mid : List Char)
    (hc : c = lbraceC ∨ c = '[') (hd : jsWhitespace d = false) :
    cleanAgentText (String.mk (c :: (mid ++ [d]))) = c :: (mid ++ [d]) := by
  have hcw : jsWhitespace c = false := by
    rcases hc with hc | hc <;> subst hc <;> decide
  have hcb : ¬((c :: (mid ++ [d])).take 3 =
      [backquote, backquote, backquote]) := by
    rcases hc with hc | hc <;> subst hc <;>
      (intro h; rw [List.take_succ_cons] at h
       exact absurd (List.cons.inj h).1 (by decide))
  have hcond : ((c :: (mid ++ [d])).head? == some lbraceC ||
      (c :: (mid ++ [d])).head? == some '[') = true := by
    rcases hc with hc | hc <;> subst hc <;> rfl
  simp only [cleanAgentText]
  rw [jsTrimList_noop c d mid hcw hd, if_neg hcb, if_pos hcond]

theorem cleanAgentText_fenced (c d : Char) (mid : List Char)
    (hc : c = lbraceC ∨ c = '[') (hd : jsWhitespace d = false) :
    cleanAgentText (String.mk (("```json\n").data ++
        ((c :: (mid ++ [d])) ++ ("\n```").data))) =
      c :: (mid ++ [d]) := by
  have hcw : jsWhitespace c = false := by
    rcases hc with hc | hc <;> subst hc <;> decide
  have hcond : ((c :: (mid ++ [d])).head? == some lbraceC ||
      (c :: (mid ++ [d])).head? == some '[') = true := by
    rcases hc with hc | hc <;> subst hc <;> rfl
  have hshape : ("```json\n").data ++ ((c :: (mid ++ [d])) ++ ("\n```").data) =
      backquote :: ((backquote :: backquote :: 'j' :: 's' :: 'o' :: 'n' ::
        '\n' :: (c :: (mid ++ [d] ++ ['\n', backquote, backquote]))) ++
          [backquote]) := by
    show [backquote, backquote, backquote, 'j', 's', 'o', 'n', '\n'] ++
        ((c :: (mid ++ [d])) ++ ['\n', backquote, backquote, backquote]) = _
    simp
  simp only [cleanAgentText]
  rw [hshape, jsTrimList_noop backquote backquote _ (by decide) (by decide),
    ← hshape]
  rw [if_pos (show (("```json\n").data ++
      ((c :: (mid ++ [d])) ++ ("\n```").data)).take 3 =
      [backquote, backquote, backquote] from rfl)]
  rw [show stripLeadingFence (("```json\n").data ++
      ((c :: (mid ++ [d])) ++ ("\n```").data)) =
      List.dropWhile jsWhitespace
        (c :: ((mid ++ [d]) ++ ("\n```").data)) from rfl]
  rw [dropWhile_cons_not jsWhitespace c _ hcw]
  have hrev : (c :: ((mid ++ [d]) ++ ("\n```").data)).reverse =
      backquote :: backquote :: backquote :: '\n' ::
        (d :: (mid.reverse ++ [c])) := by
    show (c :: ((mid ++ [d]) ++ ['\n', backquote, backquote, backquote])).reverse = _
    simp
  simp only [stripTrailingFence]
  rw [hrev]
  rw [if_pos (show (backquote :: backquote :: backquote :: '\n' ::
      (d :: (mid.reverse ++ [c]))).take 3 =
      [backquote, backquote, backquote] from rfl)]
  rw [show ((backquote :: backquote :: backquote :: '\n' ::
      (d :: (mid.reverse ++ [c]))).drop 3).dropWhile jsWhitespace =
      List.dropWhile jsWhitespace (d :: (mid.reverse ++ [c])) from rfl]
  rw [dropWhile_cons_not jsWhitespace d _ hd]
  rw [show (d :: (mid.reverse ++ [c])).reverse = c :: (mid ++ [d]) from by
    simp]
  rw [if_pos hcond]

/-- Counterexample to C10: serialising the string value `a{b}c` and fencing
it yields a text the parser rejects — the fence is stripped, the remainder
does not start with a brace or bracket, and the greedy brace match hands
`{b}` to the strict parser. -/
theorem C10_counterexample :
    jsonStringify (Json.str "a\x7bb\x7dc") = "\"a\x7bb\x7dc\"" ∧
    parseAgentJSON
        ("```json\n" ++ jsonStringify (Json.str "a\x7bb\x7dc") ++ "\n```") =
      .error "Agent returned invalid JSON: Expected string key in JSON object" ∧
    ∀ v : Json, ¬(parseAgentJSON ("```json\n" ++
        jsonStringify (Json.str "a\x7bb\x7dc") ++ "\n```") = .ok v) := by
  refine ⟨rfl, rfl, ?_⟩
  intro v h
  rw [show parseAgentJSON ("```json\n" ++
      jsonStringify (Json.str "a\x7bb\x7dc") ++ "\n```") =
      .error "Agent returned invalid JSON: Expected string key in JSON object"
      from rfl] at h
  exact Except.noConfusion h

/-- **C10** (corrected).  `parseAgentJSON` is a left inverse of fenced (and
bare) serialisation for every value whose serialisation starts with a brace
or a bracket — top-level objects and arrays; for other values the greedy
brace extraction can reject or corrupt the text (see the counterexample). -/
theorem C10_fenced_roundtrip (v : Json) (hv : v.isCompound = true) :
    parseAgentJSON (jsonStringify v) = .ok v ∧
    parseAgentJSON ("```json\n" ++ jsonStringify v ++ "\n```") = .ok v := by
  have hshape : ∃ c mid d, stringifyL v = c :: (mid ++ [d]) ∧
      (c = lbraceC ∨ c = '[') ∧ jsWhitespace d = false := by
    cases v with
    | obj fs =>
      exact ⟨lbraceC, stringifyFields fs, rbraceC, by simp [stringifyL],
        Or.inl rfl, by decide⟩
    | arr xs =>
      exact ⟨'[', stringifyElems xs, ']', by simp [stringifyL],
        Or.inr rfl, by decide⟩
    | null => exact absurd hv (by simp [Json.isCompound])
    | bool b => exact absurd hv (by simp [Json.isCompound])
    | num n => exact absurd hv (by simp [Json.isCompound])
    | str s => exact absurd hv (by simp [Json.isCompound])
  obtain ⟨c, mid, d, hsv, hc, hd⟩ := hshape
  constructor
  · show parseAgentJSON (String.mk (stringifyL v)) = .ok v
    unfold parseAgentJSON
    rw [show String.mk (stringifyL v) = String.mk (c :: (mid ++ [d])) from by
      rw [hsv]]
    rw [cleanAgentText_plain c d mid hc hd, ← hsv, jsonParse_stringify v]
  · have hdata : "```json\n" ++ jsonStringify v ++ "\n```" =
        String.mk (("```json\n").data ++
          ((c :: (mid ++ [d])) ++ ("\n```").data)) := by
      show String.mk ((("```json\n").data ++ (jsonStringify v).data) ++
        ("\n```").data) = _
      apply congrArg String.mk
      rw [show (jsonStringify v).data = stringifyL v from rfl, hsv]
      simp [List.append_assoc]
    rw [hdata]
    unfold parseAgentJSON
    rw [cleanAgentText_fenced c d mid hc hd, ← hsv, jsonParse_stringify v]

theorem C10_fenced_roundtrip_witness :
    parseAgentJSON (jsonStringify (Json.obj [("a", Json.str "b")])) =
      .ok (Json.obj [("a", Json.str "b")]) ∧
    parseAgentJSON ("```json\n" ++
        jsonStringify (Json.obj [("a", Json.str "b")]) ++ "\n```") =
      .ok (Json.obj [("a", Json.str "b")]) :=
  C10_fenced_roundtrip (Json.obj [("a", Json.str "b")]) rfl

theorem dropWhile_all_true (p : Char → Bool) :
    ∀ l1 l2 : List Char, (∀ c ∈ l1, p c = true) →
      List.dropWhile p (l1 ++ l2) = List.dropWhile p l2 := by
  intro l1
  induction l1 with
  | nil => intro l2 _; rfl
  | cons a l1 ih =>
    intro l2 h
    rw [List.cons_append, List.dropWhile_cons, h a (by simp)]
    exact ih l2 (fun c hc => h c (by simp [hc]))

theorem braceSpan_skip : ∀ pre l : List Char, (∀ c ∈ pre, ¬(c = lbraceC)) →
    braceSpan (pre ++ l) = braceSpan l := by
  intro pre
  induction pre with
  | nil => intro l _; rfl
  | cons a pre ih =>
    intro l h
    rw [List.cons_append]
    show braceSpan (a :: (pre ++ l)) = _
    simp only [braceSpan, if_neg (h a (by simp))]
    exact ih l (fun c hc => h c (by simp [hc]))

theorem lastBraceLen_calc (mid post : List Char)
    (hpost : ∀ c ∈ post, ¬(c = rbraceC)) :
    lastBraceLen (mid ++ rbraceC :: post) = some (mid.length + 1) := by
  unfold lastBraceLen
  rw [show (mid ++ rbraceC :: post).reverse =
      post.reverse ++ (rbraceC :: mid.reverse) from by simp]
  rw [dropWhile_all_true _ post.reverse _ (by
    intro c hc
    have := hpost c (List.mem_reverse.mp hc)
    simp [this])]
  rw [dropWhile_cons_not _ rbraceC _ (by simp)]
  simp

theorem braceSpan_greedy (pre mid post : List Char)
    (hpre : ∀ c ∈ pre, ¬(c = lbraceC))
    (hpost : ∀ c ∈ post, ¬(c = rbraceC)) :
    braceSpan (pre ++ lbraceC :: (mid ++ rbraceC :: post)) =
      some (lbraceC :: (mid ++ [rbraceC])) := by
  rw [braceSpan_skip pre _ hpre]
  show braceSpan (lbraceC :: (mid ++ rbraceC :: post)) = _
  simp only [braceSpan, if_pos rfl, lastBraceLen_calc mid post hpost]
  rw [show mid.length + 1 = mid.length + 1 from rfl]
  rw [show (mid ++ rbraceC :: post).take (mid.length + 1) =
      mid ++ (rbraceC :: post).take 1 from List.take_append ..]
  rfl

/-- **C7** (corrected).  Step (3) of the implemented recovery pipeline is
the greedy regex match, not the first brace-balanced substring: for any raw
text whose trimmed form starts with a non-fence character other than a
brace or bracket, contains a first opening brace and a last closing brace,
the cleaned text handed to the strict parser is everything from that first
opening brace to that last closing brace, and `parseAgentJSON` returns the
strict parse of that greedy span (errors wrapped as
`Agent returned invalid JSON: ...`). -/
theorem C7_greedy_extraction (p0 : Char) (pre mid post : List Char)
    (hp0w : jsWhitespace p0 = false) (hp0b : ¬(p0 = backquote))
    (hp0l : ¬(p0 = lbraceC)) (hp0k : ¬(p0 = '['))
    (hpre : ∀ c ∈ pre, ¬(c = lbraceC))
    (hpost : ∀ c ∈ post, ¬(c = rbraceC))
    (hlast : ∀ y, post.getLast? = some y → jsWhitespace y = false) :
    cleanAgentText (String.mk ((p0 :: pre) ++
        lbraceC :: (mid ++ rbraceC :: post))) =
      lbraceC :: (mid ++ [rbraceC]) ∧
    parseAgentJSON (String.mk ((p0 :: pre) ++
        lbraceC :: (mid ++ rbraceC :: post))) =
      match jsonParseList (lbraceC :: (mid ++ [rbraceC])) with
      | .ok v => .ok v
      | .error msg => .error ("Agent returned invalid JSON: " ++ msg) := by
  have hclean : cleanAgentText (String.mk ((p0 :: pre) ++
      lbraceC :: (mid ++ rbraceC :: post))) =
      lbraceC :: (mid ++ [rbraceC]) := by
    have htrim : jsTrimList ((p0 :: pre) ++ lbraceC :: (mid ++ rbraceC :: post)) =
        (p0 :: pre) ++ lbraceC :: (mid ++ rbraceC :: post) := by
      rcases List.eq_nil_or_concat post with hpn | ⟨ys, y, hpc⟩
      · subst hpn
        have := jsTrimList_noop p0 rbraceC (pre ++ lbraceC :: mid) hp0w
          (by decide)
        rw [show (p0 :: pre) ++ lbraceC :: (mid ++ rbraceC :: ([] : List Char)) =
            p0 :: ((pre ++ lbraceC :: mid) ++ [rbraceC]) from by simp]
        exact this
      · rw [List.concat_eq_append] at hpc
        subst hpc
        have hy : jsWhitespace y = false :=
          hlast y (List.getLast?_concat ..)
        have := jsTrimList_noop p0 y
          (pre ++ lbraceC :: (mid ++ rbraceC :: ys)) hp0w hy
        rw [show (p0 :: pre) ++ lbraceC :: (mid ++ rbraceC :: (ys ++ [y])) =
            p0 :: ((pre ++ lbraceC :: (mid ++ rbraceC :: ys)) ++ [y]) from by
          simp]
        exact this
    have hfence : ¬(((p0 :: pre) ++
        lbraceC :: (mid ++ rbraceC :: post)).take 3 =
        [backquote, backquote, backquote]) := by
      intro h
      rw [List.cons_append, List.take_succ_cons] at h
      exact absurd (List.cons.inj h).1 hp0b
    have hcond : (((p0 :: pre) ++
        lbraceC :: (mid ++ rbraceC :: post)).head? == some lbraceC ||
        ((p0 :: pre) ++
          lbraceC :: (mid ++ rbraceC :: post)).head? == some '[') = false := by
      rw [List.cons_append, List.head?_cons]
      simp [hp0l, hp0k]
    have hgreedy := braceSpan_greedy (p0 :: pre) mid post
      (by intro c hc
          rcases List.mem_cons.mp hc with hc | hc
          · subst hc; exact hp0l
          · exact hpre c hc) hpost
    simp only [cleanAgentText]
    rw [htrim, if_neg hfence,
      if_neg (by rw [hcond]; exact Bool.false_ne_true), hgreedy]
  refine ⟨hclean, ?_⟩
  unfold parseAgentJSON
  rw [hclean]

/-- Counterexample to C7: on `noise {"a":1} tail {"b":2}` the implementation
greedily extracts `{"a":1} tail {"b":2}` and fails, while the specified
first-balanced-substring policy would parse `{"a":1}`. -/
theorem C7_counterexample :
    parseAgentJSON "noise \x7b\"a\":1\x7d tail \x7b\"b\":2\x7d" =
      .error "Agent returned invalid JSON: Unexpected non-whitespace character after JSON data" ∧
    parseAgentJSONSpec "noise \x7b\"a\":1\x7d tail \x7b\"b\":2\x7d" =
      .ok (Json.obj [("a", Json.num 1)]) ∧
    parseAgentJSON "noise \x7b\"a\":1\x7d tail \x7b\"b\":2\x7d" ≠
      parseAgentJSONSpec "noise \x7b\"a\":1\x7d tail \x7b\"b\":2\x7d" := by
  refine ⟨rfl, rfl, ?_⟩
  intro h
  rw [show parseAgentJSON "noise \x7b\"a\":1\x7d tail \x7b\"b\":2\x7d" =
      .error "Agent returned invalid JSON: Unexpected non-whitespace character after JSON data"
      from rfl,
    show parseAgentJSONSpec "noise \x7b\"a\":1\x7d tail \x7b\"b\":2\x7d" =
      .ok (Json.obj [("a", Json.num 1)]) from rfl] at h
  exact Except.noConfusion h

theorem C7_greedy_extraction_witness :
    cleanAgentText (String.mk (('n' :: "oise ".data) ++
        lbraceC :: ("\"a\":1\x7d tail \x7b\"b\":2".data ++
          rbraceC :: ([] : List Char)))) =
      lbraceC :: ("\"a\":1\x7d tail \x7b\"b\":2".data ++ [rbraceC]) ∧
    parseAgentJSON (String.mk (('n' :: "oise ".data) ++
        lbraceC :: ("\"a\":1\x7d tail \x7b\"b\":2".data ++
          rbraceC :: ([] : List Char)))) =
      match jsonParseList
          (lbraceC :: ("\"a\":1\x7d tail \x7b\"b\":2".data ++ [rbraceC])) with
      | .ok v => .ok v
      | .error msg => .error ("Agent returned invalid JSON: " ++ msg) :=
  C7_greedy_extraction 'n' "oise ".data "\"a\":1\x7d tail \x7b\"b\":2".data []
    (by decide) (by decide) (by decide) (by decide) (by decide) (by decide)
    (by intro y hy; simp at hy)
